import Mathlib

/-!
The fileManager repository: access control and session authentication.

A shallow embedding of `src/fm/permission.go`, `src/fm/login.go` and the parts of
`src/fm/file_manager.go` they use.

Conventions of the embedding.

* A Go `string` is a Lean `String`; the helpers of package `strings` are written on
  the character list of the string.
* A Go `map[string]T` is an association list read with `List.lookup`; a missing key
  reads as the zero value of `T`, as in Go.
* A Go panic is the value `none` of an `Option` result.
* Package `regexp` and package `jwt` are libraries outside the repository. They are
  passed to the embedded functions as a record of their entry points (`Regexp`,
  `JWT`); a concrete `goRegexp` for a fragment of the RE2 syntax is given to evaluate
  the functions on concrete inputs.
* `time.Now()` is an argument: a number of nanoseconds since the epoch.
* A `gin.Context` is a record of the request, the keys set on it and the response
  written so far; a handler is a function on it, and `c.Next()` at the end of a
  handler is the return to `runChain`, which runs the next handler unless the
  context is aborted.
-/

namespace FM

/-! ## Package `strings` -/

/-- Go `strings.HasPrefix(s, prefix)`. -/
def stringsHasPrefix (s pre : String) : Bool :=
  pre.data.isPrefixOf s.data

/-- Go `strings.TrimPrefix(s, prefix)`: `s` without the leading `prefix`, or `s`
itself when it does not start with `prefix`. -/
def stringsTrimPrefix (s pre : String) : String :=
  if stringsHasPrefix s pre then ⟨s.data.drop pre.data.length⟩ else s

/-- Go `strings.Trim(s, cutset)`: `s` without its leading and trailing characters
that occur in `cutset`. -/
def stringsTrim (s cutset : String) : String :=
  ⟨((s.data.dropWhile (fun c => cutset.data.contains c)).reverse.dropWhile
      (fun c => cutset.data.contains c)).reverse⟩

/-! ## Package `regexp`, as used by `matchPathPattern` -/

/-- The entry point of package `regexp` that the repository calls:
`regexp.MustCompile(expr)` is `none` when it panics (the expression does not parse)
and otherwise the compiled expression, given by its `MatchString`. -/
structure Regexp where
  mustCompile : String → Option (String → Bool)

/-! ### A concrete `regexp` for a fragment of the RE2 syntax

The fragment: literal characters, `.`, `^`, `$`, groups `( )`, alternation `|`, the
repetitions `*`, `+`, `?` with their non-greedy forms, a backslash before an ASCII
punctuation character, and bracket expressions made of plain characters and ranges.
The flags are those of `regexp.Compile` (`syntax.Perl`): `^` and `$` match at the
ends of the text only, `.` does not match a newline, a negated class does.
An expression that uses anything else (counted repetition, `(?...)` groups, escapes
of letters or digits, named classes) is answered with `CompileError.unsupported`;
no statement below evaluates `goRegexp` on such an expression. -/

deriving instance DecidableEq for Except

/-- The syntax tree of a parsed expression. -/
inductive Re where
  | empty
  | lit (c : Char)
  | anyNotNL
  | cls (neg : Bool) (ranges : List (Char × Char))
  | beginText
  | endText
  | cat (a b : Re)
  | alt (a b : Re)
  | star (a : Re)
  | plus (a : Re)
  | quest (a : Re)
deriving Repr, DecidableEq

/-- The iterations of a starred expression: `step` matches the body once; an
iteration that consumes nothing is not repeated. -/
def Re.iter (step : Bool → List Char → (Bool → List Char → Bool) → Bool) :
    Nat → Bool → List Char → (Bool → List Char → Bool) → Bool
  | 0, atStart, s, k => k atStart s
  | n + 1, atStart, s, k =>
    k atStart s ||
      step atStart s (fun atStart1 s1 => decide (s1.length < s.length) && Re.iter step n atStart1 s1 k)

/-- Backtracking matcher: `r.run atStart s k` holds when `r` matches a prefix of `s`
(`atStart` tells whether `s` is the whole text) and the continuation `k` accepts
what is left. -/
def Re.run : Re → Bool → List Char → (Bool → List Char → Bool) → Bool
  | .empty, atStart, s, k => k atStart s
  | .lit c, _, s, k =>
    match s with
    | [] => false
    | x :: xs => c == x && k false xs
  | .anyNotNL, _, s, k =>
    match s with
    | [] => false
    | x :: xs => x != '\n' && k false xs
  | .cls neg ranges, _, s, k =>
    match s with
    | [] => false
    | x :: xs => (ranges.any (fun r => decide (r.1 ≤ x) && decide (x ≤ r.2)) != neg) && k false xs
  | .beginText, atStart, s, k => atStart && k atStart s
  | .endText, atStart, s, k => s.isEmpty && k atStart s
  | .cat a b, atStart, s, k => a.run atStart s (fun atStart1 s1 => b.run atStart1 s1 k)
  | .alt a b, atStart, s, k => a.run atStart s k || b.run atStart s k
  | .star a, atStart, s, k =>
    Re.iter (fun atStart1 s1 k1 => a.run atStart1 s1 k1) s.length atStart s k
  | .plus a, atStart, s, k =>
    a.run atStart s (fun atStart1 s1 =>
      Re.iter (fun atStart2 s2 k2 => a.run atStart2 s2 k2) s1.length atStart1 s1 k)
  | .quest a, atStart, s, k => a.run atStart s k || k atStart s

/-- The unanchored search of `MatchString`: a match may start at any position. -/
def Re.search (r : Re) : Bool → List Char → Bool
  | atStart, [] => r.run atStart [] (fun _ _ => true)
  | atStart, c :: cs => r.run atStart (c :: cs) (fun _ _ => true) || Re.search r false cs

/-- Why an expression is not compiled: the errors of `regexp/syntax`, and
`unsupported` for an expression outside the fragment. -/
inductive CompileError where
  | missingParen
  | unexpectedParen
  | missingBracket
  | invalidCharRange
  | missingRepeatArgument
  | invalidRepeatOp
  | trailingBackslash
  | invalidEscape
  | unsupported
deriving Repr, DecidableEq

/-- One open group of the parser: the alternatives already closed by `|` and the
items of the concatenation being read, both most recent first. -/
structure Frame where
  alts : List Re := []
  cur : List Re := []
deriving Repr, DecidableEq

/-- What the parser has just read. -/
inductive Mode where
  | item
  | repOp
  | repDone
  | escape
  | inClass (raw : List Char)
deriving Repr, DecidableEq

/-- The parser state: the innermost open group, the enclosing ones, the mode. -/
structure PState where
  top : Frame := {}
  outer : List Frame := []
  mode : Mode := .item
deriving Repr, DecidableEq

/-- The characters `regexp.QuoteMeta` escapes. -/
def isMeta (c : Char) : Bool :=
  ['\\', '.', '+', '*', '?', '(', ')', '|', '[', ']', '{', '}', '^', '$'].contains c

def catList : List Re → Re
  | [] => .empty
  | r :: rs => .cat r (catList rs)

def altList : List Re → Re
  | [] => .empty
  | [r] => r
  | r :: rs => .alt r (altList rs)

/-- The expression of a group when it is closed. -/
def Frame.toRe (f : Frame) : Re :=
  altList (catList f.cur.reverse :: f.alts).reverse

def PState.push (ps : PState) (r : Re) : PState :=
  { ps with top := { ps.top with cur := r :: ps.top.cur }, mode := .item }

/-- The items of a bracket expression: a character, or a range `lo-hi`. -/
def classItems : List Char → Except CompileError (List (Char × Char))
  | [] => .ok []
  | lo :: '-' :: hi :: rest =>
    if lo ≤ hi then (classItems rest).map (fun rs => (lo, hi) :: rs) else .error .invalidCharRange
  | c :: rest => (classItems rest).map (fun rs => (c, c) :: rs)

/-- The bracket expression whose text between `[` and `]` is `raw`. -/
def classOf (raw : List Char) : Except CompileError Re :=
  let neg := raw.head? == some '^'
  let body := if neg then raw.drop 1 else raw
  if body.isEmpty || raw.contains '\\' || raw.contains '[' then .error .unsupported
  else (classItems body).map (fun rs => Re.cls neg rs)

/-- A repetition operator applied to the last item read. -/
def PState.repeatLast (ps : PState) (op : Re → Re) : Except CompileError PState :=
  match ps.top.cur with
  | [] => .error .missingRepeatArgument
  | r :: rs => .ok { ps with top := { ps.top with cur := op r :: rs }, mode := .repOp }

/-- The parser reads one character. -/
def PState.step (ps : PState) (c : Char) : Except CompileError PState :=
  match ps.mode with
  | .inClass raw =>
    if c = ']' then (classOf raw.reverse).map (fun r => ps.push r)
    else .ok { ps with mode := .inClass (c :: raw) }
  | .escape =>
    if c.isAlphanum || c = '_' then .error .unsupported
    else if c.val < 128 then .ok (ps.push (.lit c))
    else .error .invalidEscape
  | mode =>
    if c = '*' ∨ c = '+' ∨ c = '?' then
      if mode = .repOp ∧ c = '?' then .ok { ps with mode := .repDone }
      else if mode = .repOp ∨ mode = .repDone then .error .invalidRepeatOp
      else ps.repeatLast (if c = '*' then Re.star else if c = '+' then Re.plus else Re.quest)
    else if c = '(' then .ok { top := {}, outer := ps.top :: ps.outer, mode := .item }
    else if c = ')' then
      match ps.outer with
      | [] => .error .unexpectedParen
      | f :: fs => .ok { top := { f with cur := ps.top.toRe :: f.cur }, outer := fs, mode := .item }
    else if c = '|' then
      .ok { ps with top := { alts := catList ps.top.cur.reverse :: ps.top.alts, cur := [] },
                    mode := .item }
    else if c = '[' then .ok { ps with mode := .inClass [] }
    else if c = '\\' then .ok { ps with mode := .escape }
    else if c = '{' then .error .unsupported
    else if c = '.' then .ok (ps.push .anyNotNL)
    else if c = '^' then .ok (ps.push .beginText)
    else if c = '$' then .ok (ps.push .endText)
    else .ok (ps.push (.lit c))

/-- The end of the expression: every group must be closed. -/
def PState.finish (ps : PState) : Except CompileError Re :=
  match ps.mode with
  | .inClass _ => .error .missingBracket
  | .escape => .error .trailingBackslash
  | _ =>
    match ps.outer with
    | [] => .ok ps.top.toRe
    | _ :: _ => .error .missingParen

def parseFrom : PState → List Char → Except CompileError Re
  | ps, [] => ps.finish
  | ps, c :: cs =>
    match ps.step c with
    | .error e => .error e
    | .ok ps1 => parseFrom ps1 cs

/-- Model of `regexp.Compile` on the fragment. -/
def goCompile (expr : String) : Except CompileError Re :=
  parseFrom {} expr.data

/-- The concrete `regexp`: `MustCompile` panics when `Compile` returns an error. -/
def goRegexp : Regexp where
  mustCompile expr :=
    match goCompile expr with
    | .error _ => none
    | .ok r => some (fun s => r.search true s.data)

/-! ## `permission.go` -/

def PermissionFileView : String := "file:view"
def PermissionFileDownload : String := "file:download"
def PermissionFileEdit : String := "file:edit"
def PermissionFileDelete : String := "file:delete"
def PermissionFileRename : String := "file:rename"
def PermissionDirView : String := "dir:view"
def PermissionDirCreate : String := "dir:create"
def PermissionDirUpload : String := "dir:upload"
def PermissionDirDelete : String := "dir:delete"
def PermissionDirRename : String := "dir:rename"

/-- Go `type User struct`. The zero value (every field empty) is `{}`. -/
structure User where
  Username : String := ""
  EncryptPassword : String := ""
  Role : String := ""
  Permissions : List (String × Bool) := []
  BaseRolePathRestrictions : List String := []
  BaseRolePathBlocking : List String := []
  IP : String := ""
deriving DecidableEq, Repr, Inhabited

/-- Go `m[key]` on a `map[string]bool`: `false` for a missing key or a nil map. -/
def mapBool (m : List (String × Bool)) (key : String) : Bool :=
  (m.lookup key).getD false

def User.IsAdmin (u : User) : Bool :=
  if u.Role = "admin" then true else false

def User.HasPermission (u : User) (permission : String) : Bool :=
  if u.IsAdmin then true else mapBool u.Permissions permission

/-- Go `matchPathPattern(pattern, path)`; `none` when `regexp.MustCompile` panics. -/
def matchPathPattern (re : Regexp) (pattern path : String) : Option Bool :=
  if pattern = "/" ∧ path = "/" then some true
  else
    let normalizedPattern := "/" ++ stringsTrim pattern "/"
    let normalizedPath := "/" ++ stringsTrim path "/"
    if normalizedPattern = normalizedPath then some true
    else
      let regexpStr := "^" ++ normalizedPattern
      match re.mustCompile regexpStr with
      | none => none
      | some compile =>
        some (compile normalizedPath || stringsHasPrefix normalizedPattern normalizedPath)

/-- The loop `for _, pattern := range patterns { if matchPathPattern(pattern, path)
{ return true } }; return false` shared by `isPathBlocked` and `IsPathAllowed`. -/
def rangeMatch (re : Regexp) (path : String) : List String → Option Bool
  | [] => some false
  | pattern :: rest =>
    match matchPathPattern re pattern path with
    | none => none
    | some true => some true
    | some false => rangeMatch re path rest

def User.isPathBlocked (re : Regexp) (u : User) (path : String) : Option Bool :=
  if u.IsAdmin || u.BaseRolePathBlocking.length == 0 then some false
  else rangeMatch re path u.BaseRolePathBlocking

def User.IsPathAllowed (re : Regexp) (u : User) (path : String) : Option Bool :=
  if u.IsAdmin then some true
  else
    match u.isPathBlocked re path with
    | none => none
    | some true => some false
    | some false => rangeMatch re path u.BaseRolePathRestrictions


/-! ## Package `gin` -/

/-- The request as the accessors of `gin.Context` deliver it: `GetHeader`, `Cookie`,
`Query` and `PostForm` read these tables. -/
structure Request where
  Header : List (String × String) := []
  Cookies : List (String × String) := []
  Query : List (String × String) := []
  PostForm : List (String × String) := []
deriving DecidableEq, Repr, Inhabited

/-- A value stored under a key of the context (Go `any`): the repository stores a
`User` under "user" and a string under "errorMessage". -/
inductive Value where
  | user (u : User)
  | str (s : String)
deriving DecidableEq, Repr

/-- The arguments of `c.SetCookie`. -/
structure Cookie where
  name : String
  value : String
  maxAge : Int
  path : String
  domain : String
  secure : Bool
  httpOnly : Bool
deriving DecidableEq, Repr

structure Context where
  Request : Request := {}
  Keys : List (String × Value) := []
  Status : Nat := 200
  Body : String := ""
  Location : String := ""
  SetCookies : List Cookie := []
  Aborted : Bool := false
deriving DecidableEq, Repr

def Context.Get (c : Context) (key : String) : Option Value :=
  c.Keys.lookup key

def Context.Set (c : Context) (key : String) (value : Value) : Context :=
  { c with Keys := (key, value) :: c.Keys }

def Context.GetHeader (c : Context) (key : String) : String :=
  (c.Request.Header.lookup key).getD ""

/-- Go `c.Cookie(name)`: `none` stands for the error `http.ErrNoCookie`. -/
def Context.Cookie (c : Context) (name : String) : Option String :=
  c.Request.Cookies.lookup name

def Context.Query (c : Context) (key : String) : String :=
  (c.Request.Query.lookup key).getD ""

def Context.PostForm (c : Context) (key : String) : String :=
  (c.Request.PostForm.lookup key).getD ""

/-- Go `c.Data(code, contentType, data)`. -/
def Context.Data (c : Context) (code : Nat) (_contentType : String) (data : String) : Context :=
  { c with Status := code, Body := data }

/-- Go `c.Redirect(code, location)`. -/
def Context.Redirect (c : Context) (code : Nat) (location : String) : Context :=
  { c with Status := code, Location := location }

/-- Go `c.SetCookie(name, value, maxAge, path, domain, secure, httpOnly)`: one more
`Set-Cookie` header on the response. -/
def Context.SetCookie (c : Context) (name value : String) (maxAge : Int) (path domain : String)
    (secure httpOnly : Bool) : Context :=
  { c with SetCookies := c.SetCookies ++ [⟨name, value, maxAge, path, domain, secure, httpOnly⟩] }

/-- Go `c.JSON(code, obj)`; `body` is the encoding of `obj`. -/
def Context.JSON (c : Context) (code : Nat) (body : String) : Context :=
  { c with Status := code, Body := body }

/-- Go `c.String(code, body)`. -/
def Context.String (c : Context) (code : Nat) (body : String) : Context :=
  { c with Status := code, Body := body }

def Context.Abort (c : Context) : Context :=
  { c with Aborted := true }

/-- The handlers of a route run in order; an aborted context stops the chain and a
panic (`none`) ends it. -/
def runChain : List (Context → Option Context) → Context → Option Context
  | [], c => some c
  | h :: hs, c =>
    if c.Aborted then some c
    else
      match h c with
      | none => none
      | some c1 => runChain hs c1

/-! ## `file_manager.go` -/

/-- Go `rsa.PublicKey`. -/
structure PublicKey where
  N : Nat
  E : Nat
deriving DecidableEq, Repr

/-- Go `rsa.PrivateKey`, which embeds its public key. -/
structure PrivateKey where
  PublicKey : PublicKey
  D : Nat
deriving DecidableEq, Repr

structure FileManager where
  rootDir : String
  maxUploadSize : Int
  cookieName : String
  maxAge : Int
  privateKey : PrivateKey
  publicKey : PublicKey
  port : String
  hashPassword : String → String
  users : List (String × User) := []
  guestUser : User
  ginMode : String := ""

/-- The package variable `guestUser`. -/
def guestUser : User :=
  { Username := "guest",
    Permissions := [(PermissionFileView, true), (PermissionDirView, true)],
    BaseRolePathRestrictions := ["/"] }

/-- Go `fm.users[name]`: the zero `User` when `name` is not a key. -/
def FileManager.usersAt (fm : FileManager) (name : String) : User :=
  (fm.users.lookup name).getD {}

def FileManager.SetCookieName (fm : FileManager) (name : String) : FileManager :=
  { fm with cookieName := name }

def FileManager.SetKey (fm : FileManager) (privateKey : PrivateKey) (publicKey : PublicKey) :
    FileManager :=
  { fm with privateKey := privateKey, publicKey := publicKey }

def FileManager.SetHashPassword (fm : FileManager) (password : String → String) : FileManager :=
  { fm with hashPassword := password }

def FileManager.SetUsers (fm : FileManager) (users : List (String × User)) : FileManager :=
  { fm with users := users }

def FileManager.SetGuestUser (fm : FileManager) (guestUser : User) : FileManager :=
  { fm with guestUser := guestUser }

/-! ## Package `path/filepath` (Unix) -/

/-- Go `strings.Split(s, "/")` on the characters of `s`. -/
def splitSlash : List Char → List (List Char)
  | [] => [[]]
  | c :: cs =>
    if c = '/' then [] :: splitSlash cs
    else
      match splitSlash cs with
      | [] => [[c]]
      | seg :: segs => (c :: seg) :: segs

/-- The elements joined with `/`. -/
def joinSlash : List (List Char) → List Char
  | [] => []
  | [seg] => seg
  | seg :: segs => seg ++ '/' :: joinSlash segs

/-- The elements `filepath.Clean` keeps, read from left to right; `kept` holds the
elements kept so far, the last one first. An empty element and `.` are dropped; `..`
removes the element before it, is dropped at the root, and stays at the start of a
relative path. -/
def cleanSegments (rooted : Bool) : List (List Char) → List (List Char) → List (List Char)
  | [], kept => kept.reverse
  | seg :: rest, kept =>
    if seg = [] ∨ seg = ['.'] then cleanSegments rooted rest kept
    else if seg = ['.', '.'] then
      match kept with
      | [] => if rooted then cleanSegments rooted rest [] else cleanSegments rooted rest [seg]
      | top :: below =>
        if top = ['.', '.'] then cleanSegments rooted rest (seg :: kept)
        else cleanSegments rooted rest below
    else cleanSegments rooted rest (seg :: kept)

/-- Go `filepath.Clean(path)`. -/
def filepathClean (path : String) : String :=
  if path = "" then "."
  else
    let rooted := path.data.head? == some '/'
    let body := joinSlash (cleanSegments rooted (splitSlash path.data) [])
    let out := if rooted then '/' :: body else body
    if out = [] then "." else ⟨out⟩

/-- Go `filepath.Join(elem...)`: the elements from the first non-empty one on, joined
with `/` and cleaned; the empty string when every element is empty. -/
def filepathJoin (elem : List String) : String :=
  match elem.dropWhile (fun e => e == "") with
  | [] => ""
  | rest => filepathClean ⟨joinSlash (rest.map String.data)⟩

/-- Go `filepath.Dir(path)`: the path up to its last `/`, cleaned. -/
def filepathDir (path : String) : String :=
  filepathClean ⟨(path.data.reverse.dropWhile (fun c => c != '/')).reverse⟩

/-- Go `strings.ReplaceAll(s, old, new)` for a one-character `old`. -/
def stringsReplaceAll (s : String) (old : Char) (new : String) : String :=
  ⟨(s.data.map (fun c => if c = old then new.data else [c])).flatten⟩

/-! ## Package `os` -/

/-- The result of `os.Stat`: the kind of the entry, or the error, which is
`os.IsNotExist` or another one. -/
inductive StatResult where
  | file
  | dir
  | notExist (err : String)
  | failed (err : String)
deriving DecidableEq, Repr

/-- A call of the handlers that changes the file system. -/
inductive FileOp where
  | backup (path : String)
  | writeFile (path content : String)
  | mkdirAll (path : String)
  | create (path : String)
  | copy (path content : String)
  | removeAll (path : String)
  | rename (oldPath newPath : String)
deriving DecidableEq, Repr

/-- The file system as the handlers see it: what the reading calls return, and the
error, if any, that a changing call returns. -/
structure FS where
  stat : String → StatResult
  readFile : String → Except String String
  readDir : String → Except String (List (String × Bool))
  run : FileOp → Option String

/-! ## `permission.go`: the two middlewares -/

/-- The identity `requirePermission` acts for (its first lines): the value under
"user" when it is a `User`, the package's `guestUser` otherwise. -/
def actingUser (c : Context) : User :=
  match c.Get "user" with
  | none => guestUser
  | some (.user u) => u
  | some _ => guestUser

def requirePermission (re : Regexp) (requiredPermission : String) (c : Context) :
    Option Context :=
  let user := actingUser c
  let c := c.Set "user" (.user user)
  if !user.HasPermission requiredPermission then
    some ((c.String 403 "权限不足，无法访问此功能").Abort)
  else
    let path := c.Query "path"
    match user.IsPathAllowed re path with
    | none => none
    | some false => some ((c.String 403 "没有权限访问此路径").Abort)
    | some true => some c

/-- Go `checkPathPermission()`; the assertion `user.(User)` panics on a value that is
not a `User`. -/
def checkPathPermission (re : Regexp) (c : Context) : Option Context :=
  let (user, c) :=
    match c.Get "user" with
    | none => (Value.user guestUser, c.Set "user" (.user guestUser))
    | some v => (v, c)
  match user with
  | .user currentUser =>
    let path := if c.PostForm "path" = "" then c.Query "path" else c.PostForm "path"
    match currentUser.IsPathAllowed re path with
    | none => none
    | some false => some ((c.String 403 "没有权限访问此路径").Abort)
    | some true => some c
  | _ => none

/-! ## `login.go` -/

/-- Go `time.Second` and `time.Hour`, in nanoseconds. -/
def Second : Nat := 1000000000
def Hour : Nat := 3600 * Second

/-- Go `jwt.NumericDate`: an instant, in nanoseconds since the epoch. -/
structure NumericDate where
  Time : Nat
deriving DecidableEq, Repr

/-- Go `jwt.NewNumericDate(t)`: `t` truncated to `jwt.TimePrecision`, one second. -/
def NewNumericDate (t : Nat) : NumericDate :=
  ⟨t / Second * Second⟩

/-- Go `jwt.RegisteredClaims`, the fields the repository sets; the others stay zero. -/
structure RegisteredClaims where
  Issuer : String := ""
  ExpiresAt : Option NumericDate := none
  IssuedAt : Option NumericDate := none
deriving DecidableEq, Repr

structure JWTClaims where
  Username : String
  RegisteredClaims : RegisteredClaims
deriving DecidableEq, Repr

/-- Go `jwt.Token`, the two fields `validateJWTToken` reads. -/
structure Token where
  Claims : JWTClaims
  Valid : Bool
deriving DecidableEq, Repr

/-- The entry points of package `jwt` that the repository calls.
`signedStringRS256 claims key` is
`jwt.NewWithClaims(jwt.SigningMethodRS256, claims).SignedString(key)`;
`parseWithClaims tokenString key now` is `jwt.ParseWithClaims(tokenString,
&JWTClaims{}, keyFunc)` run at time `now` with a `keyFunc` that returns `key`. -/
structure JWT where
  signedStringRS256 : JWTClaims → PrivateKey → Except String String
  parseWithClaims : String → PublicKey → Nat → Except String Token

/-- Go `generateRSAKeyPair()`; `gen` is the result of `rsa.GenerateKey`. -/
def generateRSAKeyPair (gen : Except String PrivateKey) :
    Except String (PrivateKey × PublicKey) :=
  match gen with
  | .error err => .error err
  | .ok privateKey => .ok (privateKey, privateKey.PublicKey)

/-- Go `NewFileManager(dir, logger)`: `none` is the nil result. `sha256Hex` is
`DefaultHashPassword`. -/
def NewFileManager (dir : String) (gen : Except String PrivateKey)
    (sha256Hex : String → String) : Option FileManager :=
  match generateRSAKeyPair gen with
  | .error _ => none
  | .ok (privateKey, publicKey) =>
    some { rootDir := dir, maxUploadSize := 10 * 2 ^ 30, cookieName := "fm_session",
           privateKey := privateKey, publicKey := publicKey, maxAge := 36000,
           port := "8080", hashPassword := sha256Hex, guestUser := guestUser }

/-- Go `fm.generateJWTToken(username)`; `now1` and `now2` are the two readings of
`time.Now()`, in the order of evaluation. -/
def FileManager.generateJWTToken (jwt : JWT) (fm : FileManager) (username : String)
    (now1 now2 : Nat) : Except String String :=
  let claims : JWTClaims :=
    { Username := username,
      RegisteredClaims :=
        { ExpiresAt := some (NewNumericDate (now1 + 24 * Hour)),
          IssuedAt := some (NewNumericDate now2),
          Issuer := fm.cookieName ++ "-jwt" } }
  jwt.signedStringRS256 claims fm.privateKey

def FileManager.validateJWTToken (jwt : JWT) (fm : FileManager) (tokenString : String)
    (now : Nat) : Except String JWTClaims :=
  match jwt.parseWithClaims tokenString fm.publicKey now with
  | .error err => .error err
  | .ok token => if token.Valid then .ok token.Claims else .error "invalid token"

def FileManager.extractTokenFromRequest (fm : FileManager) (c : Context) : String :=
  let authHeader := c.GetHeader "Authorization"
  if authHeader ≠ "" then
    if stringsHasPrefix authHeader "Bearer " then stringsTrimPrefix authHeader "Bearer "
    else authHeader
  else
    match c.Cookie fm.cookieName with
    | some token => token
    | none => c.Query "token"

def FileManager.jwtAuthMiddleware (jwt : JWT) (fm : FileManager) (now : Nat) (c : Context) :
    Context :=
  let tokenString := fm.extractTokenFromRequest c
  if tokenString ≠ "" then
    match fm.validateJWTToken jwt tokenString now with
    | .error _ => c.Set "user" (.user FM.guestUser)
    | .ok claims => c.Set "user" (.user (fm.usersAt claims.Username))
  else c

/-- Go `fm.handleLogin(c)`. `marshal` is the JSON encoding of a `gin.H` of strings;
`now1` and `now2` are the readings of `time.Now()` in `generateJWTToken`. The calls to
the logger are left out. -/
def FileManager.handleLogin (jwt : JWT) (marshal : List (String × String) → String)
    (fm : FileManager) (now1 now2 : Nat) (c : Context) : Context :=
  let username := c.PostForm "username"
  let password := c.PostForm "password"
  match fm.users.lookup username with
  | none =>
    c.Redirect 303 "/login?error=<p class=\x27error\x27>账户不存在或账户名输入错误</p>"
  | some user =>
    if user.EncryptPassword ≠ fm.hashPassword password then
      c.Redirect 303 "/login?error=<p class=\x27error\x27>密码输入错误</p>"
    else
      match fm.generateJWTToken jwt username now1 now2 with
      | .error _ =>
        c.Redirect 303 "/login?error=<p class=\x27error\x27>登录失败，请重试</p>"
      | .ok token =>
        let c := c.SetCookie fm.cookieName token fm.maxAge "/" "" false true
        let c := c.Set "user" (.user user)
        if c.GetHeader "Content-Type" = "application/json" then
          c.JSON 200 (marshal [("token", token), ("username", username), ("message", "登录成功")])
        else c.Redirect 303 "/file"

/-- Go `fm.handleLogout(c)`. The token is validated for the log line only, which is
left out: the response does not depend on it. -/
def FileManager.handleLogout (_jwt : JWT) (marshal : List (String × String) → String)
    (fm : FileManager) (_now : Nat) (c : Context) : Context :=
  let c := c.SetCookie fm.cookieName "" (-1) "/" "" false true
  if c.GetHeader "Content-Type" = "application/json" then
    c.JSON 200 (marshal [("message", "登出成功")])
  else
    let c := c.Set "user" (.user FM.guestUser)
    c.Redirect 303 "/file"

/-! ## `file_manager.go` and the page generators: the handlers of the routes

A handler that changes the file system returns, with the context, the list of the
changing calls it made, in order. A page is kept as the data it is rendered from; its
HTML text is left to a function `render`. -/

/-- What a page of the file manager is rendered from. -/
inductive Page where
  | missing (err : String) (user : User)
  | editor (path : String) (content : Except String String) (user : User)
  | viewer (path : String) (content : Except String String) (user : User)
  | unreadable (path : String) (err : String) (user : User)
  | listing (path : String) (parentLink : Bool) (entries : List (String × Bool)) (user : User)

/-- The lines `user, exists := c.Get("user"); if !exists { user = guestUser };
currentUser := user.(User)`; `none` when the assertion panics. -/
def contextUser (c : Context) : Option User :=
  match c.Get "user" with
  | none => some guestUser
  | some (.user u) => some u
  | some _ => none

/-- Go `generateFileViewerHTML`: the content of the file with `"`, `<`, `>` and the
line ends replaced. -/
def generateFileViewerHTML (fs : FS) (fullPath path : String) (user : User) : Page :=
  match fs.readFile fullPath with
  | .error err => .viewer path (.error err) user
  | .ok content =>
    let fileContent := stringsReplaceAll content '"' "&quot;"
    let fileContent := stringsReplaceAll fileContent '<' "&lt;"
    let fileContent := stringsReplaceAll fileContent '>' "&gt;"
    let fileContent := stringsReplaceAll fileContent '\n' "<br>"
    .viewer path (.ok fileContent) user

/-- Go `generateFileEditorHTML`: each replacement starts from the content again, so
the last one stays. -/
def generateFileEditorHTML (fs : FS) (fullPath path : String) (user : User) : Page :=
  match fs.readFile fullPath with
  | .error err => .editor path (.error err) user
  | .ok content => .editor path (.ok (stringsReplaceAll content '>' "&gt;")) user

/-- The loop of `generateFileManagerHTML` that keeps the entries the user is allowed
on. -/
def filterAllowed (re : Regexp) (user : User) (path : String) :
    List (String × Bool) → Option (List (String × Bool))
  | [] => some []
  | file :: files =>
    let filePath := filepathJoin [path, file.1]
    let encodedPath := stringsReplaceAll filePath '\\' "/"
    match user.IsPathAllowed re encodedPath with
    | none => none
    | some allowed =>
      match filterAllowed re user path files with
      | none => none
      | some rest => some (if allowed then file :: rest else rest)

/-- Go `fm.generateFileManagerHTML(fullPath, path, editMode, user)`. -/
def FileManager.generateFileManagerHTML (re : Regexp) (fs : FS) (_fm : FileManager)
    (fullPath path : String) (editMode : Bool) (user : User) : Option Page :=
  match fs.stat fullPath with
  | .notExist err => some (.missing err user)
  | .failed err => some (.missing err user)
  | .file =>
    if editMode then some (generateFileEditorHTML fs fullPath path user)
    else some (generateFileViewerHTML fs fullPath path user)
  | .dir =>
    let parentPath := if filepathDir path = "." then "" else filepathDir path
    match (if path ≠ "" then user.IsPathAllowed re parentPath else some false) with
    | none => none
    | some parentLink =>
      match fs.readDir fullPath with
      | .error err => some (.unreadable path err user)
      | .ok files =>
        match filterAllowed re user path files with
        | none => none
        | some filteredFiles => some (.listing path parentLink filteredFiles user)

/-- Go `fm.handleFileManager(c)`. -/
def FileManager.handleFileManager (re : Regexp) (fs : FS) (render : Page → String)
    (fm : FileManager) (c : Context) : Option Context :=
  match contextUser c with
  | none => none
  | some user =>
    let path := c.Query "path"
    let editMode := decide (c.Query "edit" = "true")
    let fullPath := filepathJoin [fm.rootDir, path]
    match fm.generateFileManagerHTML re fs fullPath path editMode user with
    | none => none
    | some html => some (c.Data 200 "text/html; charset=utf-8" (render html))

/-- The check of `handleFileAction` before its first `switch`: for the action "create"
with `is_dir` "true", the user must be allowed on the path of the new item. The
result is `none` on a panic, `some (some c)` when the request is answered, `some
none` when the handler goes on. -/
def createPathCheck (re : Regexp) (currentUser : User) (c : Context) (action path : String) :
    Option (Option Context) :=
  if action = "create" then
    let name := c.PostForm "name"
    if c.PostForm "is_dir" = "true" then
      let newPath := filepathJoin [path, name]
      match currentUser.IsPathAllowed re newPath with
      | none => none
      | some false => some (some (c.String 403 "没有权限在该位置创建内容"))
      | some true => some none
    else some none
  else some none

/-- The first `switch` of `handleFileAction`: the preconditions and the permission of
each action. The result is read as for `createPathCheck`. -/
def checkAction (re : Regexp) (currentUser : User) (c : Context) (action path : String)
    (isDir pathExists : Bool) : Option (Option Context) :=
  if action = "edit" then
    if !pathExists then some (some (c.String 404 "文件不存在"))
    else if isDir then some (some (c.String 400 "不能编辑目录"))
    else if !currentUser.HasPermission PermissionFileEdit then
      some (some (c.String 403 "没有文件编辑权限"))
    else some none
  else if action = "create" then
    if c.PostForm "name" = "" then some (some (c.String 400 "名称不能为空"))
    else if c.PostForm "is_dir" = "true" then
      if !currentUser.HasPermission PermissionDirCreate then
        some (some (c.String 403 "没有目录创建权限"))
      else some none
    else
      if !currentUser.HasPermission PermissionDirUpload then
        some (some (c.String 403 "没有文件创建权限"))
      else some none
  else if action = "delete" then
    if !pathExists then some (some (c.String 404 "路径不存在"))
    else if isDir then
      if !currentUser.HasPermission PermissionDirDelete then
        some (some (c.String 403 "没有目录删除权限"))
      else some none
    else
      if !currentUser.HasPermission PermissionFileDelete then
        some (some (c.String 403 "没有文件删除权限"))
      else some none
  else if action = "rename" then
    if !pathExists then some (some (c.String 404 "路径不存在"))
    else if c.PostForm "new_name" = "" then some (some (c.String 400 "新名称不能为空"))
    else
      let parentDir := filepathDir path
      let newPath := filepathJoin [parentDir, c.PostForm "new_name"]
      match currentUser.IsPathAllowed re newPath with
      | none => none
      | some false => some (some (c.String 403 "没有权限使用该名称或路径"))
      | some true =>
        if isDir then
          if !currentUser.HasPermission PermissionDirRename then
            some (some (c.String 403 "没有目录重命名权限"))
          else some none
        else
          if !currentUser.HasPermission PermissionFileRename then
            some (some (c.String 403 "没有文件重命名权限"))
          else some none
  else some (some (c.String 400 "未知操作"))

/-- The redirect that ends `handleFileAction` and `handleFileUpload`; `queryEscape` is
`url.QueryEscape`. -/
def redirectToPath (queryEscape : String → String) (c : Context) (path : String) : Context :=
  c.Redirect 303 ("/file?path=" ++ queryEscape path)

/-- The second `switch` of `handleFileAction`: the operation, then the redirect. -/
def performAction (fs : FS) (queryEscape : String → String) (c : Context)
    (action path fullPath : String) : Context × List FileOp :=
  if action = "edit" then
    let content := c.PostForm "content"
    match fs.run (.backup fullPath) with
    | some err => (c.String 500 ("创建文件备份失败: " ++ err), [.backup fullPath])
    | none =>
      match fs.run (.writeFile fullPath content) with
      | some err =>
        (c.String 500 ("编辑文件失败: " ++ err), [.backup fullPath, .writeFile fullPath content])
      | none =>
        (redirectToPath queryEscape c path, [.backup fullPath, .writeFile fullPath content])
  else if action = "create" then
    let name := c.PostForm "name"
    let newPath := filepathJoin [fullPath, name]
    if c.PostForm "is_dir" = "true" then
      match fs.run (.mkdirAll newPath) with
      | some err => (c.String 500 ("创建目录失败: " ++ err), [.mkdirAll newPath])
      | none => (redirectToPath queryEscape c path, [.mkdirAll newPath])
    else
      match fs.run (.create newPath) with
      | some err => (c.String 500 ("创建文件失败: " ++ err), [.create newPath])
      | none => (redirectToPath queryEscape c path, [.create newPath])
  else if action = "delete" then
    match fs.run (.removeAll fullPath) with
    | some err => (c.String 500 ("删除失败: " ++ err), [.removeAll fullPath])
    | none =>
      let parentPath := if filepathDir path = "." then "" else filepathDir path
      (redirectToPath queryEscape c parentPath, [.removeAll fullPath])
  else if action = "rename" then
    let newName := c.PostForm "new_name"
    let parentDir := filepathDir fullPath
    let newPath := filepathJoin [parentDir, newName]
    match fs.stat newPath with
    | .file => (c.String 400 ("名称已存在: " ++ newName), [])
    | .dir => (c.String 400 ("名称已存在: " ++ newName), [])
    | _ =>
      match fs.run (.rename fullPath newPath) with
      | some err => (c.String 500 ("重命名失败: " ++ err), [.rename fullPath newPath])
      | none =>
        let parentPath := if filepathDir path = "." then "" else filepathDir path
        (redirectToPath queryEscape c parentPath, [.rename fullPath newPath])
  else (redirectToPath queryEscape c path, [])

/-- Go `fm.handleFileAction(c)`; `none` on a panic. -/
def FileManager.handleFileAction (re : Regexp) (fs : FS) (queryEscape : String → String)
    (fm : FileManager) (c : Context) : Option (Context × List FileOp) :=
  let action := c.PostForm "action"
  let path := c.PostForm "path"
  let fullPath := filepathJoin [fm.rootDir, path]
  match contextUser c with
  | none => none
  | some currentUser =>
    match fs.stat fullPath with
    | .failed err => some (c.String 500 ("获取文件信息失败: " ++ err), [])
    | st =>
      let isDir := decide (st = .dir)
      let pathExists := match st with
        | .notExist _ => false
        | _ => true
      match createPathCheck re currentUser c action path with
      | none => none
      | some (some answered) => some (answered, [])
      | some none =>
        match checkAction re currentUser c action path isDir pathExists with
        | none => none
        | some (some answered) => some (answered, [])
        | some none => some (performAction fs queryEscape c action path fullPath)

/-- Go `fm.handleFileUpload(c)`; `parseError` is the error of `ParseMultipartForm`,
`formFile` the name and the content of the uploaded file or the error of `FormFile`.
`c.MustGet("user").(User)` panics without a user. -/
def FileManager.handleFileUpload (re : Regexp) (fs : FS) (queryEscape : String → String)
    (fm : FileManager) (parseError : Option String) (formFile : Except String (String × String))
    (c : Context) : Option (Context × List FileOp) :=
  let path := c.PostForm "path"
  let targetDir := filepathJoin [fm.rootDir, path]
  match c.Get "user" with
  | some (.user user) =>
    match fs.stat targetDir with
    | .dir =>
      match parseError with
      | some err => some (c.String 400 ("上传文件过大: " ++ err), [])
      | none =>
        match formFile with
        | .error err => some (c.String 400 ("获取上传文件失败: " ++ err), [])
        | .ok (filename, content) =>
          let newFilePath := filepathJoin [path, filename]
          match user.IsPathAllowed re newFilePath with
          | none => none
          | some false => some (c.String 403 "没有权限上传文件到该位置", [])
          | some true =>
            let dstPath := filepathJoin [targetDir, filename]
            match fs.run (.create dstPath) with
            | some err => some (c.String 500 ("创建文件失败: " ++ err), [.create dstPath])
            | none =>
              match fs.run (.copy dstPath content) with
              | some err =>
                some (c.String 500 ("保存文件失败: " ++ err),
                  [.create dstPath, .copy dstPath content])
              | none =>
                some (redirectToPath queryEscape c path, [.create dstPath, .copy dstPath content])
    | .file => some (c.String 400 "目标目录不存在或不是目录: <nil>", [])
    | .notExist err => some (c.String 400 ("目标目录不存在或不是目录: " ++ err), [])
    | .failed err => some (c.String 400 ("目标目录不存在或不是目录: " ++ err), [])
  | _ => none

/-! ### A concrete `jwt`

Tokens in the clear: the fields of the claims and the public half of the signing key,
numbers in decimal, separated by dots. It stands in for the library where a statement
needs a concrete one: a token verifies against the key that signed it until it
expires, and nothing else verifies. -/

def digitChar (d : Nat) : Char := Char.ofNat (48 + d)

/-- The decimal digits of `n`, least significant first. -/
def encodeNatAux : Nat → Nat → List Char
  | 0, _ => []
  | fuel + 1, n =>
    if n < 10 then [digitChar n] else digitChar (n % 10) :: encodeNatAux fuel (n / 10)

def encodeNat (n : Nat) : List Char := encodeNatAux (n + 1) n

def decodeNat : List Char → Nat
  | [] => 0
  | c :: cs => (c.toNat - 48) + 10 * decodeNat cs

def encodeDate : Option NumericDate → List Char
  | none => []
  | some d => encodeNat d.Time

def decodeDate : List Char → Option NumericDate
  | [] => none
  | c :: cs => some ⟨decodeNat (c :: cs)⟩

/-- The text before the first dot and the text after it. -/
def splitDot : List Char → Option (List Char × List Char)
  | [] => none
  | c :: cs =>
    if c = '.' then some ([], cs)
    else
      match splitDot cs with
      | none => none
      | some (field, rest) => some (c :: field, rest)

def plainToken (claims : JWTClaims) (key : PublicKey) : List Char :=
  encodeNat key.N ++ '.' :: (encodeNat key.E ++ '.' ::
    (encodeDate claims.RegisteredClaims.ExpiresAt ++ '.' ::
      (encodeDate claims.RegisteredClaims.IssuedAt ++ '.' ::
        (encodeNat claims.RegisteredClaims.Issuer.data.length ++ '.' ::
          (claims.RegisteredClaims.Issuer.data ++ claims.Username.data)))))

def plainParse (token : List Char) : Option (PublicKey × JWTClaims) :=
  match splitDot token with
  | none => none
  | some (n, r1) =>
    match splitDot r1 with
    | none => none
    | some (e, r2) =>
      match splitDot r2 with
      | none => none
      | some (exp, r3) =>
        match splitDot r3 with
        | none => none
        | some (iat, r4) =>
          match splitDot r4 with
          | none => none
          | some (len, r5) =>
            some (⟨decodeNat n, decodeNat e⟩,
              { Username := ⟨r5.drop (decodeNat len)⟩,
                RegisteredClaims :=
                  { Issuer := ⟨r5.take (decodeNat len)⟩,
                    ExpiresAt := decodeDate exp,
                    IssuedAt := decodeDate iat } })

def plainJWT : JWT where
  signedStringRS256 claims key := .ok ⟨plainToken claims key.PublicKey⟩
  parseWithClaims tokenString key now :=
    match plainParse tokenString.data with
    | none => .error "token is malformed"
    | some (signer, claims) =>
      if signer ≠ key then .error "token signature is invalid"
      else
        match claims.RegisteredClaims.ExpiresAt with
        | none => .ok ⟨claims, true⟩
        | some exp =>
          if now < exp.Time then .ok ⟨claims, true⟩ else .error "token is expired"

/-! ## What the statements assume of the libraries -/

/-- The part of the contract of `regexp` the path matcher relies on for a pattern
without metacharacters: `^` followed by literal text compiles, and matches exactly
the strings that start with that text. -/
def Regexp.Literal (re : Regexp) : Prop :=
  ∀ text : List Char, (∀ c ∈ text, isMeta c = false) →
    ∃ compiled, re.mustCompile ⟨'^' :: text⟩ = some compiled ∧
      ∀ s : String, compiled s = text.isPrefixOf s.data

/-- The dates of the claims are whole seconds, as `jwt.NewNumericDate` makes them. -/
def JWTClaims.WholeSeconds (claims : JWTClaims) : Prop :=
  (∀ d, claims.RegisteredClaims.ExpiresAt = some d → d.Time % Second = 0) ∧
  (∀ d, claims.RegisteredClaims.IssuedAt = some d → d.Time % Second = 0)

/-- The part of the contract of `jwt` with RS256 that the round trip relies on: a
token signed with a private key parses, against the public half of that key and
before its expiry, to a valid token with the claims that were signed. -/
def JWT.VerifiesSigned (jwt : JWT) : Prop :=
  ∀ (claims : JWTClaims) (key : PrivateKey) (tokenString : String) (now : Nat),
    claims.WholeSeconds →
    jwt.signedStringRS256 claims key = .ok tokenString →
    (∀ d, claims.RegisteredClaims.ExpiresAt = some d → now < d.Time) →
    jwt.parseWithClaims tokenString key.PublicKey now = .ok ⟨claims, true⟩

/-- The part of the contract of `jwt` on expiry: a token signed with a private key,
whose `exp` claim is not after `now`, is refused at `now` with an error when it is
parsed against the public half of that key. -/
def JWT.RejectsExpired (jwt : JWT) : Prop :=
  ∀ (claims : JWTClaims) (key : PrivateKey) (tokenString : String) (now : Nat)
    (d : NumericDate),
    jwt.signedStringRS256 claims key = .ok tokenString →
    claims.RegisteredClaims.ExpiresAt = some d → d.Time ≤ now →
    ∃ err, jwt.parseWithClaims tokenString key.PublicKey now = .error err

/-- The characters of `"/" + strings.Trim(s, "/")`, the normalized form
`matchPathPattern` gives to its pattern and to its path. -/
def normalized (s : String) : List Char :=
  '/' :: (stringsTrim s "/").data

/-- A letter, a digit, `/`, `-` or `_`. -/
def isPlain (c : Char) : Bool :=
  c.isAlphanum || c == '/' || c == '-' || c == '_'

/-- A run of `n` slashes. -/
def slashes (n : Nat) : String :=
  ⟨List.replicate n '/'⟩

/-- The pattern is a valid regular expression where `matchPathPattern` uses it: the
expression it builds from the pattern, `^` and the normalized pattern, compiles. -/
def Regexp.ValidPattern (re : Regexp) (pattern : String) : Prop :=
  (re.mustCompile ("^" ++ ("/" ++ stringsTrim pattern "/"))).isSome = true

instance (re : Regexp) (pattern : String) : Decidable (re.ValidPattern pattern) :=
  inferInstanceAs (Decidable ((re.mustCompile ("^" ++ ("/" ++ stringsTrim pattern "/"))).isSome = true))

/-- The decision `u.HasPermission(capability) && u.IsPathAllowed(path)`, the two checks
of `requirePermission` in their order. -/
def authorize (re : Regexp) (u : User) (capability path : String) : Option Bool :=
  if u.HasPermission capability then u.IsPathAllowed re path else some false

/-- The handler passes the request on: it returns without aborting. -/
def Proceeds (r : Option Context) : Prop :=
  ∃ c, r = some c ∧ c.Aborted = false

/-- The handler rejects the request: it aborts with this status. -/
def RejectedWith (status : Nat) (r : Option Context) : Prop :=
  ∃ c, r = some c ∧ c.Aborted = true ∧ c.Status = status

/-! ## Example values -/

/-- An administrator without any permission, whose block list covers `/secret`. -/
def adminUser : User :=
  { Username := "root", Role := "admin", BaseRolePathBlocking := ["/secret"] }

/-- The identity of the scenario of the specification. -/
def alice : User :=
  { Username := "alice",
    EncryptPassword := "secret",
    Permissions := [("file:view", true)],
    BaseRolePathRestrictions := ["/public"],
    BaseRolePathBlocking := ["/public/secret"] }

/-- A user whose only block pattern has an unclosed group. -/
def brokenBlockUser : User :=
  { Username := "bob", BaseRolePathBlocking := ["("] }

def exampleKey : PrivateKey :=
  { PublicKey := { N := 3233, E := 17 }, D := 2753 }

def exampleManager : FileManager :=
  { rootDir := "/srv/files", maxUploadSize := 10 * 2 ^ 30, cookieName := "fm_session",
    privateKey := exampleKey, publicKey := exampleKey.PublicKey, maxAge := 36000,
    port := "8080", hashPassword := fun password => password,
    users := [("alice", alice)], guestUser := guestUser }

/-- A request for `path` made by a context that already holds `u` under "user". -/
def contextOf (u : User) (path : String) : Context :=
  { Request := { Query := [("path", path)] }, Keys := [("user", .user u)] }

/-- A user confined to "/public/team", with an empty block list. -/
def teamUser : User :=
  { Username := "carol",
    Permissions := [("file:view", true), ("dir:view", true)],
    BaseRolePathRestrictions := ["/public/team"] }

/-- A stand-in for the JSON encoding of a `gin.H`: the values, one a line. -/
def plainMarshal (obj : List (String × String)) : String :=
  "\n".intercalate (obj.map (fun kv => kv.1 ++ ": " ++ kv.2))

/-- A login request with this username and password. -/
def loginContext (username password : String) : Context :=
  { Request := { PostForm := [("username", username), ("password", password)] } }

/-- A logout request sent with `Content-Type: application/json`. -/
def jsonLogoutContext : Context :=
  { Request := { Header := [("Content-Type", "application/json")] } }

/-- The claims `exampleManager` signs for `username` at the instant `now`. -/
def exampleClaims (username : String) (now : Nat) : JWTClaims :=
  { Username := username,
    RegisteredClaims :=
      { ExpiresAt := some (NewNumericDate (now + 24 * Hour)),
        IssuedAt := some (NewNumericDate now),
        Issuer := "fm_session-jwt" } }

/-- The token of `plainJWT` that `exampleManager` issues for `username` at `now`. -/
def exampleToken (username : String) (now : Nat) : String :=
  ⟨plainToken (exampleClaims username now) exampleKey.PublicKey⟩

/-- A request for "/" that carries `token` in the session cookie; no key is set. -/
def cookieContext (token : String) : Context :=
  { Request := { Cookies := [("fm_session", token)], Query := [("path", "/")] } }

/-- An instant: 2023-11-14 22:13:20 UTC and a half second. -/
def exampleNow : Nat := 1700000000 * Second + 500000000

/-- A request that carries a token in all three places. -/
def threeSourceContext : Context :=
  { Request :=
      { Header := [("Authorization", "Bearer from-header")],
        Cookies := [("fm_session", "from-cookie")],
        Query := [("token", "from-query")] } }

/-- The claims signed when the clock is read a last nanosecond before
2023-11-14 22:13:21 UTC for `ExpiresAt` and at that second for `IssuedAt`. -/
def boundaryClaims : JWTClaims :=
  { Username := "alice",
    RegisteredClaims :=
      { ExpiresAt := some ⟨1700086400 * Second⟩,
        IssuedAt := some ⟨1700000001 * Second⟩,
        Issuer := "fm_session-jwt" } }

/-- A user whose only allow pattern has an unclosed bracket expression. -/
def brokenAllowUser : User :=
  { Username := "eve", BaseRolePathRestrictions := ["["] }

/-- A guest identity that may also upload, to be installed with `SetGuestUser`. -/
def uploadGuest : User :=
  { Username := "visitor",
    Permissions := [("file:view", true), ("dir:view", true), ("dir:upload", true)],
    BaseRolePathRestrictions := ["/"] }

/-- A small tree under "/srv/files": the directories "public" and "docs", the files
"public/readme.txt" and "docs/notes.txt"; every changing call succeeds. -/
def exampleFS : FS :=
  { stat := fun p =>
      if p = "/srv/files" ∨ p = "/srv/files/public" ∨ p = "/srv/files/docs" then .dir
      else if p = "/srv/files/public/readme.txt" ∨ p = "/srv/files/docs/notes.txt" then .file
      else .notExist "no such file or directory",
    readFile := fun p =>
      if p = "/srv/files/public/readme.txt" then .ok "a < b"
      else if p = "/srv/files/docs/notes.txt" then .ok "notes"
      else .error "no such file or directory",
    readDir := fun _ => .ok [],
    run := fun _ => none }

/-- A file system on which `os.Stat` fails with an error that is not `IsNotExist`. -/
def deniedFS : FS :=
  { stat := fun _ => .failed "permission denied",
    readFile := fun _ => .error "permission denied",
    readDir := fun _ => .error "permission denied",
    run := fun _ => some "permission denied" }

/-- A stand-in for the HTML text of a page. -/
def plainRender : Page → String
  | .missing err _ => "missing: " ++ err
  | .editor path (.ok content) _ => "edit " ++ path ++ ": " ++ content
  | .editor path (.error err) _ => "edit " ++ path ++ " failed: " ++ err
  | .viewer path (.ok content) _ => "view " ++ path ++ ": " ++ content
  | .viewer path (.error err) _ => "view " ++ path ++ " failed: " ++ err
  | .unreadable path err _ => "list " ++ path ++ " failed: " ++ err
  | .listing path _ entries _ => "list " ++ path ++ ": " ++ ", ".intercalate (entries.map (·.1))

/-- A user who holds "dir:view" and not "file:view", confined to "/public". -/
def lister : User :=
  { Username := "dora",
    Permissions := [("dir:view", true)],
    BaseRolePathRestrictions := ["/public"] }

/-- A user who may list, create and upload everywhere but on files whose name ends in
".key". -/
def keyBlockedUser : User :=
  { Username := "dave",
    Permissions := [("dir:view", true), ("dir:create", true), ("dir:upload", true)],
    BaseRolePathRestrictions := ["/"],
    BaseRolePathBlocking := ["/.*\\.key"] }

/-- A POST /file/action request of `u` with these form fields. -/
def actionContext (u : User) (form : List (String × String)) : Context :=
  { Request := { PostForm := form }, Keys := [("user", .user u)] }

/-- The request of `keyBlockedUser` to create the directory "new" in "/docs". -/
def mkdirRequest : Context :=
  actionContext keyBlockedUser
    [("action", "create"), ("path", "/docs"), ("name", "new"), ("is_dir", "true")]

/-- A request of `keyBlockedUser` with an action that `handleFileAction` does not
know. -/
def chmodRequest : Context :=
  actionContext keyBlockedUser [("action", "chmod"), ("path", "/docs")]

/-- The request of `keyBlockedUser` to create the file "id.key" in "/docs". -/
def keyFileRequest : Context :=
  actionContext keyBlockedUser [("action", "create"), ("path", "/docs"), ("name", "id.key")]

/-- The request of `keyBlockedUser` to create the directory "id.key" in "/docs". -/
def keyDirRequest : Context :=
  actionContext keyBlockedUser
    [("action", "create"), ("path", "/docs"), ("name", "id.key"), ("is_dir", "true")]

/-- The request of `keyBlockedUser` to rename "/docs/notes.txt" to "id.key". -/
def keyRenameRequest : Context :=
  actionContext keyBlockedUser
    [("action", "rename"), ("path", "/docs/notes.txt"), ("new_name", "id.key")]

/-- The request of `keyBlockedUser` to upload into "/docs". -/
def uploadRequest : Context :=
  actionContext keyBlockedUser [("path", "/docs")]

/-! ## Lemmas on the concrete libraries -/

theorem digitChar_toNat (d : Nat) (h : d < 10) : (digitChar d).toNat = 48 + d := by
  interval_cases d <;> rfl

theorem digitChar_ne_dot (d : Nat) (h : d < 10) : digitChar d ≠ '.' := by
  interval_cases d <;> decide

theorem decodeNat_encodeNatAux (fuel n : Nat) (h : n < fuel) :
    decodeNat (encodeNatAux fuel n) = n := by
  induction fuel generalizing n with
  | zero => omega
  | succ fuel ih =>
    unfold encodeNatAux
    split
    · rename_i hn
      simp [decodeNat, digitChar_toNat n hn]
    · rename_i hn
      have hd : n % 10 < 10 := Nat.mod_lt _ (by decide)
      simp only [decodeNat, digitChar_toNat _ hd]
      rw [ih (n / 10) (by omega)]
      omega

theorem decodeNat_encodeNat (n : Nat) : decodeNat (encodeNat n) = n :=
  decodeNat_encodeNatAux (n + 1) n (Nat.lt_succ_self n)

theorem encodeNatAux_no_dot (fuel n : Nat) : ∀ c ∈ encodeNatAux fuel n, c ≠ '.' := by
  induction fuel generalizing n with
  | zero => intro c hc; simp [encodeNatAux] at hc
  | succ fuel ih =>
    intro c hc
    unfold encodeNatAux at hc
    split at hc
    · rename_i hn
      simp only [List.mem_singleton] at hc
      exact hc ▸ digitChar_ne_dot n hn
    · rcases List.mem_cons.mp hc with h | h
      · exact h ▸ digitChar_ne_dot _ (Nat.mod_lt _ (by decide))
      · exact ih _ c h

theorem encodeNat_no_dot (n : Nat) : ∀ c ∈ encodeNat n, c ≠ '.' :=
  encodeNatAux_no_dot (n + 1) n

theorem encodeNat_ne_nil (n : Nat) : encodeNat n ≠ [] := by
  unfold encodeNat encodeNatAux
  split <;> simp

theorem encodeDate_no_dot (d : Option NumericDate) : ∀ c ∈ encodeDate d, c ≠ '.' := by
  cases d with
  | none => intro c hc; simp [encodeDate] at hc
  | some d => exact encodeNat_no_dot d.Time

theorem decodeDate_encodeDate (d : Option NumericDate) : decodeDate (encodeDate d) = d := by
  cases d with
  | none => rfl
  | some d =>
    have hne := encodeNat_ne_nil d.Time
    have hdec := decodeNat_encodeNat d.Time
    simp only [encodeDate]
    cases hl : encodeNat d.Time with
    | nil => exact absurd hl hne
    | cons c cs =>
      rw [hl] at hdec
      simp [decodeDate, hdec]

theorem splitDot_field (field rest : List Char) (h : ∀ c ∈ field, c ≠ '.') :
    splitDot (field ++ '.' :: rest) = some (field, rest) := by
  induction field with
  | nil => simp [splitDot]
  | cons c cs ih =>
    have hc : c ≠ '.' := h c (List.mem_cons_self _ _)
    have hcs : ∀ x ∈ cs, x ≠ '.' := fun x hx => h x (List.mem_cons_of_mem _ hx)
    simp [splitDot, hc, ih hcs]

theorem plainParse_plainToken (claims : JWTClaims) (key : PublicKey) :
    plainParse (plainToken claims key) = some (key, claims) := by
  unfold plainParse plainToken
  rw [splitDot_field _ _ (encodeNat_no_dot _)]
  simp only
  rw [splitDot_field _ _ (encodeNat_no_dot _)]
  simp only
  rw [splitDot_field _ _ (encodeDate_no_dot _)]
  simp only
  rw [splitDot_field _ _ (encodeDate_no_dot _)]
  simp only
  rw [splitDot_field _ _ (encodeNat_no_dot _)]
  simp [decodeNat_encodeNat, decodeDate_encodeDate]

theorem plainJWT_verifiesSigned : plainJWT.VerifiesSigned := by
  intro claims key tokenString now _ hsign hexp
  simp only [plainJWT, Except.ok.injEq] at hsign
  subst hsign
  simp only [plainJWT, plainParse_plainToken]
  cases hd : claims.RegisteredClaims.ExpiresAt with
  | none => simp
  | some d => simp [hexp d hd]

theorem isMeta_false (c : Char) (h : isMeta c = false) :
    c ≠ '\\' ∧ c ≠ '.' ∧ c ≠ '+' ∧ c ≠ '*' ∧ c ≠ '?' ∧ c ≠ '(' ∧ c ≠ ')' ∧ c ≠ '|' ∧
      c ≠ '[' ∧ c ≠ ']' ∧ c ≠ '{' ∧ c ≠ '}' ∧ c ≠ '^' ∧ c ≠ '$' := by
  simpa [isMeta] using h

theorem step_literal (ps : PState) (c : Char) (hmode : ps.mode = .item)
    (hc : isMeta c = false) : ps.step c = .ok (ps.push (.lit c)) := by
  obtain ⟨h1, h2, h3, h4, h5, h6, h7, h8, h9, _, h11, _, h13, h14⟩ := isMeta_false c hc
  unfold PState.step
  rw [hmode]
  simp [h1, h2, h3, h4, h5, h6, h7, h8, h9, h11, h13, h14]

theorem parseFrom_literal (ps : PState) (text : List Char) (hmode : ps.mode = .item)
    (htext : ∀ c ∈ text, isMeta c = false) :
    parseFrom ps text =
      PState.finish { ps with top := { ps.top with cur := (text.map Re.lit).reverse ++ ps.top.cur } } := by
  induction text generalizing ps with
  | nil =>
    simp [parseFrom]
  | cons c cs ih =>
    have hc := htext c (List.mem_cons_self _ _)
    have hcs : ∀ x ∈ cs, isMeta x = false := fun x hx => htext x (List.mem_cons_of_mem _ hx)
    simp only [parseFrom, step_literal ps c hmode hc]
    rw [ih (ps.push (.lit c)) rfl hcs]
    simp [PState.push, hmode]

theorem goCompile_literal (text : List Char) (htext : ∀ c ∈ text, isMeta c = false) :
    goCompile ⟨'^' :: text⟩ = .ok (.cat .beginText (catList (text.map Re.lit))) := by
  have hstep : PState.step {} '^' = .ok (PState.push {} .beginText) := by decide
  simp only [goCompile, parseFrom, hstep]
  rw [parseFrom_literal _ text rfl htext]
  simp [PState.push, PState.finish, Frame.toRe, altList, catList]

theorem run_literal (text s : List Char) (atStart : Bool) :
    (catList (text.map Re.lit)).run atStart s (fun _ _ => true) = text.isPrefixOf s := by
  induction text generalizing s atStart with
  | nil => simp [catList, Re.run]
  | cons c cs ih =>
    cases s with
    | nil => simp [catList, Re.run]
    | cons x xs => simp [catList, Re.run, ih, List.isPrefixOf]

theorem search_beginText_false (r : Re) (s : List Char) :
    (Re.cat .beginText r).search false s = false := by
  induction s with
  | nil => simp [Re.search, Re.run]
  | cons c cs ih => simp [Re.search, Re.run, ih]

theorem search_beginText (r : Re) (s : List Char) :
    (Re.cat .beginText r).search true s = r.run true s (fun _ _ => true) := by
  cases s with
  | nil => simp [Re.search, Re.run]
  | cons c cs => simp [Re.search, Re.run, search_beginText_false]

theorem goRegexp_literal : goRegexp.Literal := by
  intro text htext
  refine ⟨fun s => (Re.cat .beginText (catList (text.map Re.lit))).search true s.data, ?_, ?_⟩
  · simp [goRegexp, goCompile_literal text htext]
  · intro s
    simp only [search_beginText, run_literal]

/-! ## Lemmas on the embedding -/

theorem isAdmin_of_role (u : User) (h : u.Role = "admin") : u.IsAdmin = true := by
  simp [User.IsAdmin, h]

theorem isAdmin_of_not_role (u : User) (h : u.Role ≠ "admin") : u.IsAdmin = false := by
  simp [User.IsAdmin, h]

theorem matchPathPattern_of_valid (re : Regexp) (pattern path : String)
    (h : re.ValidPattern pattern) : ∃ r, matchPathPattern re pattern path = some r := by
  unfold Regexp.ValidPattern at h
  obtain ⟨compiled, hc⟩ := Option.isSome_iff_exists.mp h
  unfold matchPathPattern
  split
  · exact ⟨true, rfl⟩
  · simp only
    split
    · exact ⟨true, rfl⟩
    · rw [hc]
      exact ⟨_, rfl⟩

theorem rangeMatch_of_valid (re : Regexp) (path : String) (patterns : List String)
    (h : ∀ b ∈ patterns, re.ValidPattern b) : ∃ r, rangeMatch re path patterns = some r := by
  induction patterns with
  | nil => exact ⟨false, rfl⟩
  | cons b bs ih =>
    obtain ⟨r, hr⟩ := matchPathPattern_of_valid re b path (h b (List.mem_cons_self _ _))
    obtain ⟨r1, hr1⟩ := ih (fun x hx => h x (List.mem_cons_of_mem _ hx))
    cases r with
    | true => exact ⟨true, by simp [rangeMatch, hr]⟩
    | false => exact ⟨r1, by simp [rangeMatch, hr, hr1]⟩

theorem rangeMatch_true_of_mem (re : Regexp) (path : String) (patterns : List String)
    (hvalid : ∀ b ∈ patterns, re.ValidPattern b)
    (hmatch : ∃ b ∈ patterns, matchPathPattern re b path = some true) :
    rangeMatch re path patterns = some true := by
  induction patterns with
  | nil => simp at hmatch
  | cons b bs ih =>
    obtain ⟨r, hr⟩ := matchPathPattern_of_valid re b path (hvalid b (List.mem_cons_self _ _))
    cases r with
    | true => simp [rangeMatch, hr]
    | false =>
      obtain ⟨x, hx, hxm⟩ := hmatch
      rcases List.mem_cons.mp hx with hxb | hxbs
      · subst hxb
        rw [hr] at hxm
        cases hxm
      · simp only [rangeMatch, hr]
        exact ih (fun y hy => hvalid y (List.mem_cons_of_mem _ hy)) ⟨x, hxbs, hxm⟩

theorem rangeMatch_false_of_all (re : Regexp) (path : String) (patterns : List String)
    (h : ∀ p ∈ patterns, matchPathPattern re p path = some false) :
    rangeMatch re path patterns = some false := by
  induction patterns with
  | nil => rfl
  | cons b bs ih =>
    simp only [rangeMatch, h b (List.mem_cons_self _ _)]
    exact ih (fun x hx => h x (List.mem_cons_of_mem _ hx))

theorem isPathBlocked_of_not_admin (re : Regexp) (u : User) (path : String)
    (h : u.Role ≠ "admin") :
    u.isPathBlocked re path = rangeMatch re path u.BaseRolePathBlocking := by
  unfold User.isPathBlocked
  rw [isAdmin_of_not_role u h]
  cases hb : u.BaseRolePathBlocking with
  | nil => simp [rangeMatch]
  | cons b bs => simp

theorem caret_append (s : String) : "^" ++ s = ⟨'^' :: s.data⟩ := by
  apply String.ext
  simp

theorem slash_append (s : String) : "/" ++ s = ⟨'/' :: s.data⟩ := by
  apply String.ext
  simp

/-- For a pattern without metacharacters, and a `regexp` that treats literal text as
such, `matchPathPattern` is the prefix test in both directions on the normalized
strings. -/
theorem matchPathPattern_literal (re : Regexp) (hre : re.Literal) (pattern path : String)
    (hlit : ∀ c ∈ (stringsTrim pattern "/").data, isMeta c = false) :
    matchPathPattern re pattern path =
      some (('/' :: (stringsTrim pattern "/").data).isPrefixOf ('/' :: (stringsTrim path "/").data)
        || ('/' :: (stringsTrim path "/").data).isPrefixOf ('/' :: (stringsTrim pattern "/").data)) := by
  have htext : ∀ c ∈ '/' :: (stringsTrim pattern "/").data, isMeta c = false := by
    intro c hc
    rcases List.mem_cons.mp hc with h | h
    · subst h; decide
    · exact hlit c h
  obtain ⟨compiled, hcomp, hmatch⟩ := hre _ htext
  unfold matchPathPattern
  split
  · rename_i h
    obtain ⟨h1, h2⟩ := h
    subst h1
    subst h2
    decide
  · simp only
    split
    · rename_i h
      rw [slash_append, slash_append] at h
      have hd := congrArg String.data h
      simp only at hd
      rw [hd]
      simp
    · rw [slash_append, caret_append, hcomp]
      simp only [hmatch, stringsHasPrefix, slash_append]

theorem hasPermission_of_not_admin (u : User) (permission : String) (h : u.Role ≠ "admin") :
    u.HasPermission permission = mapBool u.Permissions permission := by
  simp [User.HasPermission, isAdmin_of_not_role u h]

theorem actingUser_of_get (c : Context) (u : User) (h : c.Get "user" = some (.user u)) :
    actingUser c = u := by
  simp [actingUser, h]

theorem query_set (c : Context) (key : String) (v : Value) (name : String) :
    (c.Set key v).Query name = c.Query name := rfl

/-- What `requirePermission` does once the acting user is known. -/
theorem requirePermission_of_get (re : Regexp) (p : String) (c : Context) (u : User)
    (h : c.Get "user" = some (.user u)) :
    requirePermission re p c =
      if !u.HasPermission p then
        some (((c.Set "user" (.user u)).String 403 "权限不足，无法访问此功能").Abort)
      else
        match u.IsPathAllowed re (c.Query "path") with
        | none => none
        | some false => some (((c.Set "user" (.user u)).String 403 "没有权限访问此路径").Abort)
        | some true => some (c.Set "user" (.user u)) := by
  simp only [requirePermission, actingUser_of_get c u h, query_set]

/-! ## The claims -/

/-- C1: for a user whose Role is "admin", every permission and every path,
`HasPermission` is true and `IsPathAllowed` returns true, whatever the permission map
and the two pattern lists hold and whatever `regexp` does, and `requirePermission`
passes the request on with the response untouched. -/
theorem C1_admin_allowed (re : Regexp) (u : User) (permission path : String) (c : Context)
    (hadmin : u.Role = "admin") (huser : c.Get "user" = some (.user u)) :
    u.HasPermission permission = true ∧ u.IsPathAllowed re path = some true ∧
      requirePermission re permission c = some (c.Set "user" (.user u)) := by
  have ha := isAdmin_of_role u hadmin
  have hp : u.HasPermission permission = true := by simp [User.HasPermission, ha]
  have hall : ∀ q, u.IsPathAllowed re q = some true := by
    intro q
    simp [User.IsPathAllowed, ha]
  refine ⟨hp, hall path, ?_⟩
  rw [requirePermission_of_get re permission c u huser, hp, hall]
  simp

/-- C1 at an administrator with an empty permission map, an empty allow list and a
block pattern that matches the path. -/
theorem C1_admin_allowed_witness :
    adminUser.Role = "admin" ∧ adminUser.Permissions = [] ∧
      adminUser.BaseRolePathRestrictions = [] ∧
      matchPathPattern goRegexp "/secret" "/secret/x" = some true ∧
      (adminUser.HasPermission "file:delete" = true ∧
        adminUser.IsPathAllowed goRegexp "/secret/x" = some true ∧
        requirePermission goRegexp "file:delete" (contextOf adminUser "/secret/x") =
          some ((contextOf adminUser "/secret/x").Set "user" (.user adminUser))) :=
  ⟨rfl, rfl, rfl, by decide,
    C1_admin_allowed goRegexp adminUser "file:delete" "/secret/x"
      (contextOf adminUser "/secret/x") rfl rfl⟩

/-- C2: for a user whose Role is not "admin", `requirePermission(p)` on a request for
path `q` passes the request on exactly when the permission map maps `p` to true and
`IsPathAllowed(q)` returns true; a permission that is absent or mapped to false is
rejected with 403 whatever the path, and a granted permission is rejected with 403
when `IsPathAllowed(q)` returns false. -/
theorem C2_non_admin_gate (re : Regexp) (u : User) (p q : String) (c : Context)
    (hrole : u.Role ≠ "admin") (huser : c.Get "user" = some (.user u))
    (hq : c.Query "path" = q) (hrun : c.Aborted = false) :
    (Proceeds (requirePermission re p c) ↔
        u.Permissions.lookup p = some true ∧ u.IsPathAllowed re q = some true) ∧
    (u.Permissions.lookup p = none ∨ u.Permissions.lookup p = some false →
        RejectedWith 403 (requirePermission re p c)) ∧
    (u.Permissions.lookup p = some true → u.IsPathAllowed re q = some false →
        RejectedWith 403 (requirePermission re p c)) := by
  rw [requirePermission_of_get re p c u huser, hasPermission_of_not_admin u p hrole, hq]
  unfold mapBool
  cases hl : u.Permissions.lookup p with
  | none => simp [Proceeds, RejectedWith, Context.Abort, Context.String]
  | some b =>
    cases b with
    | false => simp [Proceeds, RejectedWith, Context.Abort, Context.String]
    | true =>
      cases ha : u.IsPathAllowed re q with
      | none => simp [Proceeds, RejectedWith]
      | some r =>
        cases r with
        | false => simp [Proceeds, RejectedWith, Context.Abort, Context.String]
        | true => simp [Proceeds, RejectedWith, Context.Set, hrun]

/-- C2 at `alice`, who holds "file:view" only and may read "/public/readme.txt". -/
theorem C2_non_admin_gate_witness :
    alice.Role ≠ "admin" ∧
      (Proceeds (requirePermission goRegexp "file:view" (contextOf alice "/public/readme.txt")) ↔
        alice.Permissions.lookup "file:view" = some true ∧
          alice.IsPathAllowed goRegexp "/public/readme.txt" = some true) ∧
      (alice.Permissions.lookup "file:view" = none ∨
          alice.Permissions.lookup "file:view" = some false →
        RejectedWith 403
          (requirePermission goRegexp "file:view" (contextOf alice "/public/readme.txt"))) ∧
      (alice.Permissions.lookup "file:view" = some true →
        alice.IsPathAllowed goRegexp "/public/readme.txt" = some false →
        RejectedWith 403
          (requirePermission goRegexp "file:view" (contextOf alice "/public/readme.txt"))) :=
  ⟨by decide,
    C2_non_admin_gate goRegexp alice "file:view" "/public/readme.txt"
      (contextOf alice "/public/readme.txt") (by decide) rfl rfl rfl⟩

/-- C3: for a user whose Role is not "admin" and whose block patterns are valid
regular expressions, a path that one of the block patterns matches is not allowed:
`IsPathAllowed` returns false whatever the allow list holds, also when allow patterns
match the path. -/
theorem C3_block_wins (re : Regexp) (u : User) (path : String)
    (hrole : u.Role ≠ "admin")
    (hvalid : ∀ b ∈ u.BaseRolePathBlocking, re.ValidPattern b)
    (hblock : ∃ b ∈ u.BaseRolePathBlocking, matchPathPattern re b path = some true) :
    u.IsPathAllowed re path = some false := by
  have hb := rangeMatch_true_of_mem re path u.BaseRolePathBlocking hvalid hblock
  simp [User.IsPathAllowed, isAdmin_of_not_role u hrole,
    isPathBlocked_of_not_admin re u path hrole, hb]

/-- C3 at `alice` and "/public/secret/x": the block pattern "/public/secret" and the
allow pattern "/public" both match. -/
theorem C3_block_wins_witness :
    alice.Role ≠ "admin" ∧
      (∀ b ∈ alice.BaseRolePathBlocking, goRegexp.ValidPattern b) ∧
      (∃ b ∈ alice.BaseRolePathBlocking,
        matchPathPattern goRegexp b "/public/secret/x" = some true) ∧
      (∃ a ∈ alice.BaseRolePathRestrictions,
        matchPathPattern goRegexp a "/public/secret/x" = some true) ∧
      alice.IsPathAllowed goRegexp "/public/secret/x" = some false :=
  ⟨by decide, by decide, ⟨"/public/secret", by decide, by decide⟩,
    ⟨"/public", by decide, by decide⟩,
    C3_block_wins goRegexp alice "/public/secret/x" (by decide) (by decide)
      ⟨"/public/secret", by decide, by decide⟩⟩

/-- C4, as stated, fails: a user who is not an administrator, with an empty allow list
(so no allow pattern matches) and the block pattern "(": `matchPathPattern` compiles
"^/(", which `regexp.MustCompile` refuses, and `IsPathAllowed` panics instead of
returning false. -/
theorem C4_counterexample :
    brokenBlockUser.Role ≠ "admin" ∧
      (∀ p ∈ brokenBlockUser.BaseRolePathRestrictions,
        matchPathPattern goRegexp p "/x" = some false) ∧
      goCompile "^/(" = .error .missingParen ∧
      brokenBlockUser.IsPathAllowed goRegexp "/x" = none ∧
      brokenBlockUser.IsPathAllowed goRegexp "/x" ≠ some false := by
  decide

/-- C4, amended: for a user whose Role is not "admin" and whose block patterns are
valid regular expressions, if `matchPathPattern` is false for every allow pattern then
`IsPathAllowed` returns false; in particular such a user with an empty allow list is
denied every path. -/
theorem C4_default_deny (re : Regexp) (u : User) (path : String)
    (hrole : u.Role ≠ "admin")
    (hvalid : ∀ b ∈ u.BaseRolePathBlocking, re.ValidPattern b)
    (hnone : ∀ p ∈ u.BaseRolePathRestrictions, matchPathPattern re p path = some false) :
    u.IsPathAllowed re path = some false ∧
      (u.BaseRolePathRestrictions = [] → ∀ q, u.IsPathAllowed re q = some false) := by
  have key : ∀ q, (∀ p ∈ u.BaseRolePathRestrictions, matchPathPattern re p q = some false) →
      u.IsPathAllowed re q = some false := by
    intro q hq
    obtain ⟨r, hr⟩ := rangeMatch_of_valid re q u.BaseRolePathBlocking hvalid
    have ha := rangeMatch_false_of_all re q u.BaseRolePathRestrictions hq
    cases r with
    | true =>
      simp [User.IsPathAllowed, isAdmin_of_not_role u hrole,
        isPathBlocked_of_not_admin re u q hrole, hr]
    | false =>
      simp [User.IsPathAllowed, isAdmin_of_not_role u hrole,
        isPathBlocked_of_not_admin re u q hrole, hr, ha]
  refine ⟨key path hnone, ?_⟩
  intro hempty q
  apply key q
  intro p hp
  rw [hempty] at hp
  cases hp

/-- C4, amended, at `alice` and "/private", which her allow pattern "/public" does not
match. -/
theorem C4_default_deny_witness :
    alice.Role ≠ "admin" ∧
      (∀ b ∈ alice.BaseRolePathBlocking, goRegexp.ValidPattern b) ∧
      (∀ p ∈ alice.BaseRolePathRestrictions,
        matchPathPattern goRegexp p "/private" = some false) ∧
      (alice.IsPathAllowed goRegexp "/private" = some false ∧
        (alice.BaseRolePathRestrictions = [] →
          ∀ q, alice.IsPathAllowed goRegexp q = some false)) :=
  ⟨by decide, by decide, by decide,
    C4_default_deny goRegexp alice "/private" (by decide) (by decide) (by decide)⟩

/-- C5: for `alice` (permissions {"file:view": true}, allow list ["/public"], block list
["/public/secret"]) and a `regexp` that treats literal text as such, the decision
`HasPermission(cap) && IsPathAllowed(path)` is true for ("file:view",
"/public/readme.txt"), false for ("file:view", "/public/secret/x") because the path is
blocked, and false for ("file:delete", "/public/readme.txt") because the permission is
missing. -/
theorem C5_alice_scenario (re : Regexp) (hre : re.Literal) :
    authorize re alice "file:view" "/public/readme.txt" = some true ∧
      (authorize re alice "file:view" "/public/secret/x" = some false ∧
        alice.HasPermission "file:view" = true ∧
        alice.isPathBlocked re "/public/secret/x" = some true) ∧
      (authorize re alice "file:delete" "/public/readme.txt" = some false ∧
        alice.HasPermission "file:delete" = false) := by
  have h1 : ∀ path, matchPathPattern re "/public" path = _ :=
    fun path => matchPathPattern_literal re hre "/public" path (by decide)
  have h2 : ∀ path, matchPathPattern re "/public/secret" path = _ :=
    fun path => matchPathPattern_literal re hre "/public/secret" path (by decide)
  have hv : alice.HasPermission "file:view" = true := by decide
  have hd : alice.HasPermission "file:delete" = false := by decide
  have hb1 : alice.isPathBlocked re "/public/readme.txt" = some false := by
    simp only [User.isPathBlocked, alice, rangeMatch, h2]
    decide
  have hb2 : alice.isPathBlocked re "/public/secret/x" = some true := by
    simp only [User.isPathBlocked, alice, rangeMatch, h2]
    decide
  have ha1 : alice.IsPathAllowed re "/public/readme.txt" = some true := by
    simp only [User.IsPathAllowed, hb1]
    simp only [alice, rangeMatch, h1]
    decide
  have ha2 : alice.IsPathAllowed re "/public/secret/x" = some false := by
    simp only [User.IsPathAllowed, hb2]
    decide
  simp [authorize, hv, hd, ha1, ha2, hb2]

/-- C5 with the concrete `regexp`. -/
theorem C5_alice_scenario_witness :
    authorize goRegexp alice "file:view" "/public/readme.txt" = some true ∧
      (authorize goRegexp alice "file:view" "/public/secret/x" = some false ∧
        alice.HasPermission "file:view" = true ∧
        alice.isPathBlocked goRegexp "/public/secret/x" = some true) ∧
      (authorize goRegexp alice "file:delete" "/public/readme.txt" = some false ∧
        alice.HasPermission "file:delete" = false) :=
  C5_alice_scenario goRegexp goRegexp_literal

theorem newNumericDate_whole (t : Nat) : (NewNumericDate t).Time % Second = 0 := by
  simp [NewNumericDate]

theorem generateRSAKeyPair_matching (gen : Except String PrivateKey) (privateKey : PrivateKey)
    (publicKey : PublicKey) (h : generateRSAKeyPair gen = .ok (privateKey, publicKey)) :
    publicKey = privateKey.PublicKey := by
  unfold generateRSAKeyPair at h
  split at h
  · cases h
  · simp only [Except.ok.injEq, Prod.mk.injEq] at h
    obtain ⟨h1, h2⟩ := h
    rw [← h1, ← h2]

/-- C6: for every username, a token that `generateJWTToken(username)` returns, when the
manager's keys are a pair produced by `generateRSAKeyPair` (or any matching pair), is
accepted by `validateJWTToken` at every instant before its expiry, in particular
immediately, and the claims returned carry that username. The `jwt` library is any
one that verifies what it signed. -/
theorem C6_issue_then_validate (jwt : JWT) (hjwt : jwt.VerifiesSigned) (fm : FileManager)
    (username tokenString : String) (now1 now2 now : Nat)
    (hkey : (∃ gen, generateRSAKeyPair gen = .ok (fm.privateKey, fm.publicKey)) ∨
      fm.publicKey = fm.privateKey.PublicKey)
    (hissue : fm.generateJWTToken jwt username now1 now2 = .ok tokenString)
    (hnow : now < (NewNumericDate (now1 + 24 * Hour)).Time) :
    ∃ claims, fm.validateJWTToken jwt tokenString now = .ok claims ∧
      claims.Username = username := by
  have hk : fm.publicKey = fm.privateKey.PublicKey := by
    rcases hkey with ⟨gen, hgen⟩ | h
    · exact generateRSAKeyPair_matching gen _ _ hgen
    · exact h
  unfold FileManager.generateJWTToken at hissue
  have hparse := hjwt _ fm.privateKey tokenString now
    ⟨fun d hd => by
        simp only [Option.some.injEq] at hd
        rw [← hd]
        exact newNumericDate_whole _,
      fun d hd => by
        simp only [Option.some.injEq] at hd
        rw [← hd]
        exact newNumericDate_whole _⟩
    hissue
    (fun d hd => by
      simp only [Option.some.injEq] at hd
      rw [← hd]
      exact hnow)
  have hv : fm.validateJWTToken jwt tokenString now =
      .ok { Username := username,
            RegisteredClaims :=
              { ExpiresAt := some (NewNumericDate (now1 + 24 * Hour)),
                IssuedAt := some (NewNumericDate now2),
                Issuer := fm.cookieName ++ "-jwt" } } := by
    unfold FileManager.validateJWTToken
    rw [hk, hparse]
    simp only [if_true]
  exact ⟨_, hv, rfl⟩

/-- C6 at `exampleManager`, whose keys come from `generateRSAKeyPair`, with the token
validated at the instant it was issued. -/
theorem C6_issue_then_validate_witness :
    generateRSAKeyPair (.ok exampleKey) = .ok (exampleManager.privateKey, exampleManager.publicKey) ∧
      exampleManager.generateJWTToken plainJWT "alice" exampleNow exampleNow =
        .ok (exampleToken "alice" exampleNow) ∧
      exampleNow < (NewNumericDate (exampleNow + 24 * Hour)).Time ∧
      ∃ claims, exampleManager.validateJWTToken plainJWT (exampleToken "alice" exampleNow)
          exampleNow = .ok claims ∧ claims.Username = "alice" :=
  ⟨rfl, rfl, by decide,
    C6_issue_then_validate plainJWT plainJWT_verifiesSigned exampleManager "alice"
      (exampleToken "alice" exampleNow) exampleNow exampleNow exampleNow
      (Or.inl ⟨.ok exampleKey, rfl⟩) rfl (by decide)⟩

theorem requirePermission_user (re : Regexp) (p : String) (c c2 : Context)
    (h : requirePermission re p c = some c2) :
    c2.Get "user" = some (.user (actingUser c)) := by
  unfold requirePermission at h
  simp only at h
  split at h
  · simp only [Option.some.injEq] at h
    rw [← h]
    rfl
  · split at h
    · cases h
    · simp only [Option.some.injEq] at h
      rw [← h]
      rfl
    · simp only [Option.some.injEq] at h
      rw [← h]
      rfl

/-- C7: when the extracted token is absent or empty (and no handler before has set a
user), or when it is not empty and `validateJWTToken` fails on it for whatever reason,
`jwtAuthMiddleware` neither aborts the request nor writes a response, and the
identity `requirePermission` then acts for and stores is `guestUser`. -/
theorem C7_guest_fallback (jwt : JWT) (fm : FileManager) (now : Nat) (c : Context)
    (htoken : (fm.extractTokenFromRequest c = "" ∧ c.Get "user" = none) ∨
      (fm.extractTokenFromRequest c ≠ "" ∧
        ∃ err, fm.validateJWTToken jwt (fm.extractTokenFromRequest c) now = .error err)) :
    (fm.jwtAuthMiddleware jwt now c).Aborted = c.Aborted ∧
      (fm.jwtAuthMiddleware jwt now c).Status = c.Status ∧
      (fm.jwtAuthMiddleware jwt now c).Body = c.Body ∧
      actingUser (fm.jwtAuthMiddleware jwt now c) = guestUser ∧
      ∀ re p c2, requirePermission re p (fm.jwtAuthMiddleware jwt now c) = some c2 →
        c2.Get "user" = some (.user guestUser) := by
  have hmw : (fm.jwtAuthMiddleware jwt now c = c ∧ c.Get "user" = none) ∨
      fm.jwtAuthMiddleware jwt now c = c.Set "user" (.user guestUser) := by
    rcases htoken with ⟨hempty, hfresh⟩ | ⟨hne, err, herr⟩
    · left
      exact ⟨by simp [FileManager.jwtAuthMiddleware, hempty], hfresh⟩
    · right
      simp [FileManager.jwtAuthMiddleware, hne, herr]
  have hact : actingUser (fm.jwtAuthMiddleware jwt now c) = guestUser := by
    rcases hmw with ⟨h, hfresh⟩ | h
    · rw [h]
      simp [actingUser, hfresh]
    · rw [h]
      rfl
  refine ⟨?_, ?_, ?_, hact, ?_⟩
  · rcases hmw with ⟨h, _⟩ | h <;> simp [h, Context.Set]
  · rcases hmw with ⟨h, _⟩ | h <;> simp [h, Context.Set]
  · rcases hmw with ⟨h, _⟩ | h <;> simp [h, Context.Set]
  · intro re p c2 h2
    rw [requirePermission_user re p _ c2 h2, hact]

/-- C7 at a request whose session cookie holds a string that is no token. -/
theorem C7_guest_fallback_witness :
    exampleManager.extractTokenFromRequest (cookieContext "garbage") = "garbage" ∧
      exampleManager.validateJWTToken plainJWT "garbage" exampleNow =
        .error "token is malformed" ∧
      ((exampleManager.jwtAuthMiddleware plainJWT exampleNow (cookieContext "garbage")).Aborted =
          (cookieContext "garbage").Aborted ∧
        (exampleManager.jwtAuthMiddleware plainJWT exampleNow (cookieContext "garbage")).Status =
          (cookieContext "garbage").Status ∧
        (exampleManager.jwtAuthMiddleware plainJWT exampleNow (cookieContext "garbage")).Body =
          (cookieContext "garbage").Body ∧
        actingUser (exampleManager.jwtAuthMiddleware plainJWT exampleNow (cookieContext "garbage")) =
          guestUser ∧
        ∀ re p c2,
          requirePermission re p
              (exampleManager.jwtAuthMiddleware plainJWT exampleNow (cookieContext "garbage")) =
            some c2 →
          c2.Get "user" = some (.user guestUser)) :=
  ⟨by decide, by decide,
    C7_guest_fallback plainJWT exampleManager exampleNow (cookieContext "garbage")
      (Or.inr ⟨by decide, "token is malformed", by decide⟩)⟩

theorem jwtAuthMiddleware_of_valid (jwt : JWT) (fm : FileManager) (now : Nat) (c : Context)
    (claims : JWTClaims) (htoken : fm.extractTokenFromRequest c ≠ "")
    (hvalid : fm.validateJWTToken jwt (fm.extractTokenFromRequest c) now = .ok claims) :
    fm.jwtAuthMiddleware jwt now c = c.Set "user" (.user (fm.usersAt claims.Username)) := by
  simp [FileManager.jwtAuthMiddleware, htoken, hvalid]

theorem validateJWTToken_of_signed (jwt : JWT) (hjwt : jwt.VerifiesSigned) (fm : FileManager)
    (claims : JWTClaims) (tokenString : String) (now : Nat)
    (hkey : fm.publicKey = fm.privateKey.PublicKey) (hwhole : claims.WholeSeconds)
    (hsign : jwt.signedStringRS256 claims fm.privateKey = .ok tokenString)
    (hexp : ∀ d, claims.RegisteredClaims.ExpiresAt = some d → now < d.Time) :
    fm.validateJWTToken jwt tokenString now = .ok claims := by
  unfold FileManager.validateJWTToken
  rw [hkey, hjwt claims fm.privateKey tokenString now hwhole hsign hexp]
  simp only [if_true]

theorem exampleClaims_wholeSeconds (username : String) (now : Nat) :
    (exampleClaims username now).WholeSeconds := by
  constructor
  · intro d hd
    simp only [exampleClaims, Option.some.injEq] at hd
    rw [← hd]
    exact newNumericDate_whole _
  · intro d hd
    simp only [exampleClaims, Option.some.injEq] at hd
    rw [← hd]
    exact newNumericDate_whole _

theorem validate_exampleToken (username : String) (now : Nat)
    (h : now < (NewNumericDate (now + 24 * Hour)).Time) :
    exampleManager.validateJWTToken plainJWT (exampleToken username now) now =
      .ok (exampleClaims username now) := by
  apply validateJWTToken_of_signed plainJWT plainJWT_verifiesSigned exampleManager
    (exampleClaims username now) (exampleToken username now) now rfl
    (exampleClaims_wholeSeconds username now) rfl
  intro d hd
  simp only [exampleClaims, Option.some.injEq] at hd
  rw [← hd]
  exact h

/-- C8 on the code: when the token validates and its username is not a key of the
users directory, `jwtAuthMiddleware` stores `fm.users[username]`, the zero `User`, and
not `guestUser`: the identity has an empty username, no permission and no allow
pattern, so `requirePermission` rejects it with 403 for every permission and path,
while it passes the guest on for "dir:view" at "/". -/
theorem C8_unknown_user_is_zero_user (jwt : JWT) (fm : FileManager) (now : Nat) (c : Context)
    (claims : JWTClaims) (htoken : fm.extractTokenFromRequest c ≠ "")
    (hvalid : fm.validateJWTToken jwt (fm.extractTokenFromRequest c) now = .ok claims)
    (hunknown : fm.users.lookup claims.Username = none)
    (hrun : c.Aborted = false) (hpath : c.Query "path" = "/") :
    fm.jwtAuthMiddleware jwt now c = c.Set "user" (.user {}) ∧
      actingUser (fm.jwtAuthMiddleware jwt now c) = {} ∧
      ({} : User) ≠ guestUser ∧
      (∀ re p, RejectedWith 403 (requirePermission re p (fm.jwtAuthMiddleware jwt now c))) ∧
      (∀ re, Proceeds (requirePermission re PermissionDirView
        (c.Set "user" (.user guestUser)))) := by
  have hmw := jwtAuthMiddleware_of_valid jwt fm now c claims htoken hvalid
  have hzero : fm.usersAt claims.Username = {} := by
    simp [FileManager.usersAt, hunknown]
  rw [hzero] at hmw
  refine ⟨hmw, by rw [hmw]; rfl, by decide, ?_, ?_⟩
  · intro re p
    rw [hmw, requirePermission_of_get re p (c.Set "user" (.user {})) {} rfl]
    have hp : ({} : User).HasPermission p = false := by
      simp only [User.HasPermission, User.IsAdmin, mapBool, List.lookup, Option.getD]
      decide
    rw [hp]
    exact ⟨_, rfl, rfl, rfl⟩
  · intro re
    rw [requirePermission_of_get re PermissionDirView (c.Set "user" (.user guestUser))
      guestUser rfl]
    have hp : guestUser.HasPermission PermissionDirView = true := by decide
    have ha : guestUser.IsPathAllowed re "/" = some true := by
      simp [User.IsPathAllowed, User.IsAdmin, User.isPathBlocked, guestUser, rangeMatch,
        matchPathPattern]
    rw [hp, query_set, hpath, ha]
    exact ⟨_, rfl, hrun⟩

theorem extract_cookieContext (token : String) :
    exampleManager.extractTokenFromRequest (cookieContext token) = token := rfl

theorem exampleToken_ne_empty (username : String) (now : Nat) :
    exampleToken username now ≠ "" := by
  intro h
  have hd : (exampleToken username now).data = [] := by rw [h]
  simp only [exampleToken, plainToken] at hd
  exact List.cons_ne_nil _ _ (List.append_eq_nil.mp hd).2

/-- C8 on the code, at a request whose cookie holds a token that `exampleManager`
signed for "mallory", a name its users directory does not hold. -/
theorem C8_unknown_user_is_zero_user_witness :
    exampleManager.extractTokenFromRequest (cookieContext (exampleToken "mallory" exampleNow)) ≠ "" ∧
      exampleManager.validateJWTToken plainJWT
          (exampleManager.extractTokenFromRequest (cookieContext (exampleToken "mallory" exampleNow)))
          exampleNow = .ok (exampleClaims "mallory" exampleNow) ∧
      exampleManager.users.lookup (exampleClaims "mallory" exampleNow).Username = none ∧
      (exampleManager.jwtAuthMiddleware plainJWT exampleNow
          (cookieContext (exampleToken "mallory" exampleNow)) =
          (cookieContext (exampleToken "mallory" exampleNow)).Set "user" (.user {}) ∧
        actingUser (exampleManager.jwtAuthMiddleware plainJWT exampleNow
          (cookieContext (exampleToken "mallory" exampleNow))) = {} ∧
        ({} : User) ≠ guestUser ∧
        (∀ re p, RejectedWith 403 (requirePermission re p
          (exampleManager.jwtAuthMiddleware plainJWT exampleNow
            (cookieContext (exampleToken "mallory" exampleNow))))) ∧
        (∀ re, Proceeds (requirePermission re PermissionDirView
          ((cookieContext (exampleToken "mallory" exampleNow)).Set "user" (.user guestUser))))) :=
  have hne : exampleManager.extractTokenFromRequest
      (cookieContext (exampleToken "mallory" exampleNow)) ≠ "" := by
    rw [extract_cookieContext]
    exact exampleToken_ne_empty "mallory" exampleNow
  have hval : exampleManager.validateJWTToken plainJWT
      (exampleManager.extractTokenFromRequest (cookieContext (exampleToken "mallory" exampleNow)))
      exampleNow = .ok (exampleClaims "mallory" exampleNow) := by
    rw [extract_cookieContext]
    exact validate_exampleToken "mallory" exampleNow (by decide)
  ⟨hne, hval, by decide,
    C8_unknown_user_is_zero_user plainJWT exampleManager exampleNow
      (cookieContext (exampleToken "mallory" exampleNow)) (exampleClaims "mallory" exampleNow)
      hne hval (by decide) rfl rfl⟩

/-- What `checkPathPermission` does once the acting user is known. -/
theorem checkPathPermission_of_get (re : Regexp) (c : Context) (u : User)
    (h : c.Get "user" = some (.user u)) :
    checkPathPermission re c =
      match u.IsPathAllowed re
          (if c.PostForm "path" = "" then c.Query "path" else c.PostForm "path") with
      | none => none
      | some false => some ((c.String 403 "没有权限访问此路径").Abort)
      | some true => some c := by
  simp only [checkPathPermission, h]

/-- C9: when the token validates and its username is a key of the users directory,
`jwtAuthMiddleware` stores exactly `users[username]` under "user"; `requirePermission`
and `checkPathPermission` then decide with that user: its role and permissions in
`HasPermission`, its allow and block lists in `IsPathAllowed`. -/
theorem C9_directory_user (jwt : JWT) (fm : FileManager) (now : Nat) (c : Context)
    (claims : JWTClaims) (u : User) (htoken : fm.extractTokenFromRequest c ≠ "")
    (hvalid : fm.validateJWTToken jwt (fm.extractTokenFromRequest c) now = .ok claims)
    (hknown : fm.users.lookup claims.Username = some u) :
    fm.jwtAuthMiddleware jwt now c = c.Set "user" (.user u) ∧
      actingUser (fm.jwtAuthMiddleware jwt now c) = u ∧
      (∀ re p, requirePermission re p (fm.jwtAuthMiddleware jwt now c) =
        if !u.HasPermission p then
          some ((((c.Set "user" (.user u)).Set "user" (.user u)).String 403
            "权限不足，无法访问此功能").Abort)
        else
          match u.IsPathAllowed re (c.Query "path") with
          | none => none
          | some false =>
            some ((((c.Set "user" (.user u)).Set "user" (.user u)).String 403
              "没有权限访问此路径").Abort)
          | some true => some ((c.Set "user" (.user u)).Set "user" (.user u))) ∧
      (∀ re, checkPathPermission re (fm.jwtAuthMiddleware jwt now c) =
        match u.IsPathAllowed re
            (if c.PostForm "path" = "" then c.Query "path" else c.PostForm "path") with
        | none => none
        | some false => some (((c.Set "user" (.user u)).String 403 "没有权限访问此路径").Abort)
        | some true => some (c.Set "user" (.user u))) := by
  have hmw := jwtAuthMiddleware_of_valid jwt fm now c claims htoken hvalid
  have hu : fm.usersAt claims.Username = u := by
    simp [FileManager.usersAt, hknown]
  rw [hu] at hmw
  refine ⟨hmw, by rw [hmw]; rfl, ?_, ?_⟩
  · intro re p
    rw [hmw, requirePermission_of_get re p (c.Set "user" (.user u)) u rfl]
    rfl
  · intro re
    rw [hmw, checkPathPermission_of_get re (c.Set "user" (.user u)) u rfl]
    rfl

/-- C9 at a request whose cookie holds the token `exampleManager` signed for "alice",
who is in its users directory. -/
theorem C9_directory_user_witness :
    exampleManager.extractTokenFromRequest (cookieContext (exampleToken "alice" exampleNow)) ≠ "" ∧
      exampleManager.validateJWTToken plainJWT
          (exampleManager.extractTokenFromRequest (cookieContext (exampleToken "alice" exampleNow)))
          exampleNow = .ok (exampleClaims "alice" exampleNow) ∧
      exampleManager.users.lookup (exampleClaims "alice" exampleNow).Username = some alice ∧
      exampleManager.jwtAuthMiddleware plainJWT exampleNow
          (cookieContext (exampleToken "alice" exampleNow)) =
        (cookieContext (exampleToken "alice" exampleNow)).Set "user" (.user alice) ∧
      actingUser (exampleManager.jwtAuthMiddleware plainJWT exampleNow
        (cookieContext (exampleToken "alice" exampleNow))) = alice :=
  have hne : exampleManager.extractTokenFromRequest
      (cookieContext (exampleToken "alice" exampleNow)) ≠ "" := by
    rw [extract_cookieContext]
    exact exampleToken_ne_empty "alice" exampleNow
  have hval : exampleManager.validateJWTToken plainJWT
      (exampleManager.extractTokenFromRequest (cookieContext (exampleToken "alice" exampleNow)))
      exampleNow = .ok (exampleClaims "alice" exampleNow) := by
    rw [extract_cookieContext]
    exact validate_exampleToken "alice" exampleNow (by decide)
  have hall := C9_directory_user plainJWT exampleManager exampleNow
    (cookieContext (exampleToken "alice" exampleNow)) (exampleClaims "alice" exampleNow) alice
    hne hval (by decide)
  ⟨hne, hval, by decide, hall.1, hall.2.1⟩

theorem hasPrefix_append (pre rest : String) : stringsHasPrefix (pre ++ rest) pre = true := by
  simp [stringsHasPrefix, String.data_append]

theorem trimPrefix_append (pre rest : String) : stringsTrimPrefix (pre ++ rest) pre = rest := by
  simp [stringsTrimPrefix, hasPrefix_append, String.data_append]

theorem append_of_hasPrefix (s pre : String) (h : stringsHasPrefix s pre = true) :
    ∃ rest : String, s = pre ++ rest := by
  unfold stringsHasPrefix at h
  obtain ⟨t, ht⟩ := List.isPrefixOf_iff_prefix.mp h
  exact ⟨⟨t⟩, String.ext (by simp [String.data_append, ht])⟩

/-- C10: `extractTokenFromRequest` takes the first present source in the order
Authorization header, session cookie, query parameter "token". A header that is not
empty gives the result alone: the text after "Bearer " when it starts so, the whole
header otherwise. With an empty header a present cookie `cookieName` gives its value,
and only without the cookie the query parameter is read, empty when absent. -/
theorem C10_token_source_order (fm : FileManager) (c : Context) :
    (c.GetHeader "Authorization" ≠ "" →
      (∀ rest : String, c.GetHeader "Authorization" = "Bearer " ++ rest →
        fm.extractTokenFromRequest c = rest) ∧
      ((¬ ∃ rest : String, c.GetHeader "Authorization" = "Bearer " ++ rest) →
        fm.extractTokenFromRequest c = c.GetHeader "Authorization")) ∧
    (c.GetHeader "Authorization" = "" →
      ∀ value, c.Cookie fm.cookieName = some value → fm.extractTokenFromRequest c = value) ∧
    (c.GetHeader "Authorization" = "" → c.Cookie fm.cookieName = none →
      fm.extractTokenFromRequest c = c.Query "token" ∧
      (c.Request.Query.lookup "token" = none → fm.extractTokenFromRequest c = "")) := by
  refine ⟨?_, ?_, ?_⟩
  · intro hne
    constructor
    · intro rest hrest
      rw [hrest] at hne
      simp [FileManager.extractTokenFromRequest, hne, hrest, hasPrefix_append,
        trimPrefix_append]
    · intro hno
      have hp : stringsHasPrefix (c.GetHeader "Authorization") "Bearer " = false := by
        cases hb : stringsHasPrefix (c.GetHeader "Authorization") "Bearer " with
        | false => rfl
        | true => exact absurd (append_of_hasPrefix _ _ hb) hno
      simp [FileManager.extractTokenFromRequest, hne, hp]
  · intro hempty value hcookie
    simp [FileManager.extractTokenFromRequest, hempty, hcookie]
  · intro hempty hcookie
    constructor
    · simp [FileManager.extractTokenFromRequest, hempty, hcookie]
    · intro hq
      simp [FileManager.extractTokenFromRequest, hempty, hcookie, Context.Query, hq]

/-- C10 at a request with a token in the header, the cookie and the query: the header
wins, without its "Bearer " prefix. -/
theorem C10_token_source_order_witness :
    threeSourceContext.Cookie exampleManager.cookieName = some "from-cookie" ∧
      threeSourceContext.Query "token" = "from-query" ∧
      exampleManager.extractTokenFromRequest threeSourceContext = "from-header" :=
  ⟨by decide, by decide,
    ((C10_token_source_order exampleManager threeSourceContext).1 (by decide)).1
      "from-header" (by decide)⟩

theorem plainJWT_rejectsExpired : plainJWT.RejectsExpired := by
  intro claims key tokenString now d hsign hexp hpast
  simp only [plainJWT, Except.ok.injEq] at hsign
  subst hsign
  refine ⟨"token is expired", ?_⟩
  simp only [plainJWT, plainParse_plainToken, hexp]
  simp [Nat.not_lt.mpr hpast]

/-- C11: a token signed with the manager's key whose `exp` claim is earlier than the
current time makes `validateJWTToken` return an error and no claims, and for a request
that carries it `jwtAuthMiddleware` stores the guest identity, over any identity the
context already holds; `requirePermission` then acts for the guest, not for the user
the token names. The `jwt` library is any one that refuses an expired token. -/
theorem C11_expired_token_is_guest (jwt : JWT) (hjwt : jwt.RejectsExpired) (fm : FileManager)
    (claims : JWTClaims) (tokenString : String) (d : NumericDate) (now : Nat) (c : Context)
    (hkey : fm.publicKey = fm.privateKey.PublicKey)
    (hsign : jwt.signedStringRS256 claims fm.privateKey = .ok tokenString)
    (hexp : claims.RegisteredClaims.ExpiresAt = some d) (hpast : d.Time < now)
    (hreq : fm.extractTokenFromRequest c = tokenString) (htoken : tokenString ≠ "") :
    (∃ err, fm.validateJWTToken jwt tokenString now = .error err) ∧
      fm.jwtAuthMiddleware jwt now c = c.Set "user" (.user guestUser) ∧
      actingUser (fm.jwtAuthMiddleware jwt now c) = guestUser ∧
      ∀ re p c2, requirePermission re p (fm.jwtAuthMiddleware jwt now c) = some c2 →
        c2.Get "user" = some (.user guestUser) := by
  obtain ⟨err, herr⟩ := hjwt claims fm.privateKey tokenString now d hsign hexp (Nat.le_of_lt hpast)
  have hval : fm.validateJWTToken jwt tokenString now = .error err := by
    simp [FileManager.validateJWTToken, hkey, herr]
  have hmw : fm.jwtAuthMiddleware jwt now c = c.Set "user" (.user guestUser) := by
    simp only [FileManager.jwtAuthMiddleware, hreq, hval]
    simp [htoken]
  have hact : actingUser (fm.jwtAuthMiddleware jwt now c) = guestUser := by
    rw [hmw]
    simp [actingUser, Context.Get, Context.Set]
  refine ⟨⟨err, hval⟩, hmw, hact, ?_⟩
  intro re p c2 h2
  rw [requirePermission_user re p _ c2 h2, hact]

/-- C11 at the token `exampleManager` signed for "alice", presented 25 hours later, on
a request whose context already holds the administrator as the acting identity: the
middleware replaces it by the guest. -/
theorem C11_expired_token_is_guest_witness :
    exampleManager.users.lookup "alice" = some alice ∧
      (NewNumericDate (exampleNow + 24 * Hour)).Time < exampleNow + 25 * Hour ∧
      actingUser ((cookieContext (exampleToken "alice" exampleNow)).Set "user"
        (.user adminUser)) = adminUser ∧
      ((∃ err, exampleManager.validateJWTToken plainJWT (exampleToken "alice" exampleNow)
          (exampleNow + 25 * Hour) = .error err) ∧
        exampleManager.jwtAuthMiddleware plainJWT (exampleNow + 25 * Hour)
            ((cookieContext (exampleToken "alice" exampleNow)).Set "user" (.user adminUser)) =
          ((cookieContext (exampleToken "alice" exampleNow)).Set "user"
            (.user adminUser)).Set "user" (.user guestUser) ∧
        actingUser (exampleManager.jwtAuthMiddleware plainJWT (exampleNow + 25 * Hour)
          ((cookieContext (exampleToken "alice" exampleNow)).Set "user" (.user adminUser))) =
            guestUser ∧
        ∀ re p c2,
          requirePermission re p (exampleManager.jwtAuthMiddleware plainJWT
            (exampleNow + 25 * Hour)
            ((cookieContext (exampleToken "alice" exampleNow)).Set "user" (.user adminUser))) =
              some c2 →
          c2.Get "user" = some (.user guestUser)) :=
  ⟨by decide, by decide, rfl,
    C11_expired_token_is_guest plainJWT plainJWT_rejectsExpired exampleManager
      (exampleClaims "alice" exampleNow) (exampleToken "alice" exampleNow)
      (NewNumericDate (exampleNow + 24 * Hour)) (exampleNow + 25 * Hour)
      ((cookieContext (exampleToken "alice" exampleNow)).Set "user" (.user adminUser))
      rfl rfl rfl (by decide) (extract_cookieContext _) (exampleToken_ne_empty _ _)⟩

theorem isMeta_of_isPlain (c : Char) (h : isPlain c = true) : isMeta c = false := by
  cases hm : isMeta c with
  | false => rfl
  | true =>
    have hc : c = '\\' ∨ c = '.' ∨ c = '+' ∨ c = '*' ∨ c = '?' ∨ c = '(' ∨ c = ')' ∨ c = '|' ∨
        c = '[' ∨ c = ']' ∨ c = '{' ∨ c = '}' ∨ c = '^' ∨ c = '$' := by
      simpa [isMeta] using hm
    rcases hc with h1 | h1 | h1 | h1 | h1 | h1 | h1 | h1 | h1 | h1 | h1 | h1 | h1 | h1 <;>
      (subst h1; exact absurd h (by decide))

theorem mem_of_mem_stringsTrim (s cutset : String) (c : Char)
    (h : c ∈ (stringsTrim s cutset).data) : c ∈ s.data := by
  simp only [stringsTrim, List.mem_reverse] at h
  have h1 := (List.dropWhile_sublist _).subset h
  rw [List.mem_reverse] at h1
  exact (List.dropWhile_sublist _).subset h1

/-- The form of `matchPathPattern_literal` for a pattern that holds no metacharacter. -/
theorem matchPathPattern_plain (re : Regexp) (hre : re.Literal) (pattern path : String)
    (hplain : ∀ c ∈ pattern.data, isMeta c = false) :
    matchPathPattern re pattern path =
      some ((normalized pattern).isPrefixOf (normalized path)
        || (normalized path).isPrefixOf (normalized pattern)) :=
  matchPathPattern_literal re hre pattern path
    (fun c hc => hplain c (mem_of_mem_stringsTrim pattern "/" c hc))

theorem validPattern_of_plain (re : Regexp) (hre : re.Literal) (pattern : String)
    (hplain : ∀ c ∈ pattern.data, isMeta c = false) : re.ValidPattern pattern := by
  have htext : ∀ c ∈ '/' :: (stringsTrim pattern "/").data, isMeta c = false := by
    intro c hc
    rcases List.mem_cons.mp hc with h | h
    · subst h; decide
    · exact hplain c (mem_of_mem_stringsTrim pattern "/" c h)
  obtain ⟨compiled, hcomp, _⟩ := hre _ htext
  unfold Regexp.ValidPattern
  rw [slash_append, caret_append, hcomp]
  rfl

theorem rangeMatch_true_exists (re : Regexp) (path : String) (patterns : List String)
    (h : rangeMatch re path patterns = some true) :
    ∃ p ∈ patterns, matchPathPattern re p path = some true := by
  induction patterns with
  | nil => simp [rangeMatch] at h
  | cons b bs ih =>
    unfold rangeMatch at h
    split at h
    · cases h
    · rename_i hb
      exact ⟨b, List.mem_cons_self _ _, hb⟩
    · obtain ⟨p, hp, hm⟩ := ih h
      exact ⟨p, List.mem_cons_of_mem _ hp, hm⟩

/-- The root pattern: `^/` matches every normalized path. -/
theorem matchPathPattern_root (re : Regexp) (hre : re.Literal) (path : String) :
    matchPathPattern re "/" path = some true := by
  rw [matchPathPattern_plain re hre "/" path (by decide)]
  have hn : normalized "/" = ['/'] := by decide
  rw [hn]
  simp [normalized, List.isPrefixOf]

/-- C12, as stated, fails: the pattern "/doc" is made of letters and `/` and is not the
root pattern, the normalized path "/documents" begins with "/doc" and continues with
`u`, not `/`, and `matchPathPattern` answers true. -/
theorem C12_counterexample :
    (∀ c ∈ "/doc".data, isPlain c = true) ∧ "/doc" ≠ "/" ∧
      (normalized "/doc").isPrefixOf (normalized "/documents") = true ∧
      (normalized "/documents").drop (normalized "/doc").length = "uments".data ∧
      matchPathPattern goRegexp "/doc" "/documents" = some true := by
  decide

/-- C12, amended: `matchPathPattern` matches by string prefix, not by path segment. For
a pattern made of letters, digits, `/`, `-` and `_` and every path, if the normalized
path begins with the normalized pattern the pattern matches, whatever character
follows; so "/docs" matches "/docs" and "/docs/a" and not "/documents", and "/doc"
does match "/documents". -/
theorem C12_prefix_match (re : Regexp) (hre : re.Literal) :
    (∀ pattern path : String, (∀ c ∈ pattern.data, isPlain c = true) →
      (normalized pattern).isPrefixOf (normalized path) = true →
      matchPathPattern re pattern path = some true) ∧
    matchPathPattern re "/docs" "/docs" = some true ∧
    matchPathPattern re "/docs" "/docs/a" = some true ∧
    matchPathPattern re "/docs" "/documents" = some false ∧
    matchPathPattern re "/doc" "/documents" = some true := by
  refine ⟨?_, ?_, ?_, ?_, ?_⟩
  · intro pattern path hplain hpre
    rw [matchPathPattern_plain re hre pattern path
      (fun c hc => isMeta_of_isPlain c (hplain c hc)), hpre]
    rfl
  · rw [matchPathPattern_plain re hre "/docs" "/docs" (by decide)]
    decide
  · rw [matchPathPattern_plain re hre "/docs" "/docs/a" (by decide)]
    decide
  · rw [matchPathPattern_plain re hre "/docs" "/documents" (by decide)]
    decide
  · rw [matchPathPattern_plain re hre "/doc" "/documents" (by decide)]
    decide

/-- C12, amended, with the concrete `regexp`. -/
theorem C12_prefix_match_witness :
    (∀ pattern path : String, (∀ c ∈ pattern.data, isPlain c = true) →
      (normalized pattern).isPrefixOf (normalized path) = true →
      matchPathPattern goRegexp pattern path = some true) ∧
    matchPathPattern goRegexp "/docs" "/docs" = some true ∧
    matchPathPattern goRegexp "/docs" "/docs/a" = some true ∧
    matchPathPattern goRegexp "/docs" "/documents" = some false ∧
    matchPathPattern goRegexp "/doc" "/documents" = some true :=
  C12_prefix_match goRegexp goRegexp_literal

/-- C13, as stated, fails: `teamUser` is no administrator, her single allow pattern
"/public/team" holds no metacharacter, and the strict ancestors "/public" and "/" of
the pattern, which do not begin with it, are allowed. -/
theorem C13_counterexample :
    teamUser.Role ≠ "admin" ∧ teamUser.BaseRolePathRestrictions = ["/public/team"] ∧
      (∀ c ∈ "/public/team".data, isMeta c = false) ∧
      (normalized "/public/team").isPrefixOf (normalized "/public") = false ∧
      (normalized "/public/team").isPrefixOf (normalized "/") = false ∧
      teamUser.IsPathAllowed goRegexp "/public" = some true ∧
      teamUser.IsPathAllowed goRegexp "/" = some true := by
  decide

/-- C13, amended: for a user who is no administrator, whose allow patterns hold no
metacharacter, `IsPathAllowed(path)` is true only if the normalized path begins with
the normalized form of some allow pattern or is itself a string prefix of one; and a
path that is a prefix of an allow pattern, such as a strict ancestor, is allowed when
the block list is empty. -/
theorem C13_allowed_scope (re : Regexp) (hre : re.Literal) (u : User) (path : String)
    (hrole : u.Role ≠ "admin")
    (hplain : ∀ p ∈ u.BaseRolePathRestrictions, ∀ c ∈ p.data, isMeta c = false) :
    (u.IsPathAllowed re path = some true →
      ∃ p ∈ u.BaseRolePathRestrictions,
        (normalized p).isPrefixOf (normalized path) = true ∨
        (normalized path).isPrefixOf (normalized p) = true) ∧
    (u.BaseRolePathBlocking = [] →
      (∃ p ∈ u.BaseRolePathRestrictions, (normalized path).isPrefixOf (normalized p) = true) →
      u.IsPathAllowed re path = some true) := by
  constructor
  · intro hallowed
    have hrange : rangeMatch re path u.BaseRolePathRestrictions = some true := by
      unfold User.IsPathAllowed at hallowed
      rw [isAdmin_of_not_role u hrole] at hallowed
      simp only [Bool.false_eq_true, if_false] at hallowed
      split at hallowed
      · cases hallowed
      · cases hallowed
      · exact hallowed
    obtain ⟨p, hp, hm⟩ := rangeMatch_true_exists re path _ hrange
    refine ⟨p, hp, ?_⟩
    rw [matchPathPattern_plain re hre p path (hplain p hp)] at hm
    simpa using hm
  · intro hblock hex
    obtain ⟨p, hp, hpre⟩ := hex
    have hb : u.isPathBlocked re path = some false := by
      simp [User.isPathBlocked, hblock]
    have hm : matchPathPattern re p path = some true := by
      rw [matchPathPattern_plain re hre p path (hplain p hp), hpre]
      simp
    have hrange := rangeMatch_true_of_mem re path u.BaseRolePathRestrictions
      (fun b hb => validPattern_of_plain re hre b (hplain b hb)) ⟨p, hp, hm⟩
    simp [User.IsPathAllowed, isAdmin_of_not_role u hrole, hb, hrange]

/-- C13, amended, at `teamUser` and the ancestor "/public" of her allow pattern. -/
theorem C13_allowed_scope_witness :
    teamUser.Role ≠ "admin" ∧
      (∀ p ∈ teamUser.BaseRolePathRestrictions, ∀ c ∈ p.data, isMeta c = false) ∧
      ((teamUser.IsPathAllowed goRegexp "/public" = some true →
        ∃ p ∈ teamUser.BaseRolePathRestrictions,
          (normalized p).isPrefixOf (normalized "/public") = true ∨
          (normalized "/public").isPrefixOf (normalized p) = true) ∧
      (teamUser.BaseRolePathBlocking = [] →
        (∃ p ∈ teamUser.BaseRolePathRestrictions,
          (normalized "/public").isPrefixOf (normalized p) = true) →
        teamUser.IsPathAllowed goRegexp "/public" = some true)) :=
  ⟨by decide, by decide,
    C13_allowed_scope goRegexp goRegexp_literal teamUser "/public" (by decide) (by decide)⟩

/-- C14, as stated, fails: the path "/a" has a non-empty segment and the root pattern
matches it. -/
theorem C14_counterexample :
    normalized "/a" ≠ normalized "/" ∧ matchPathPattern goRegexp "/" "/a" = some true := by
  decide

/-- C14, amended: the root pattern "/" matches every path: `matchPathPattern("/", path)`
is true for every path, also one with a non-empty segment. -/
theorem C14_root_matches_all (re : Regexp) (hre : re.Literal) (path : String) :
    matchPathPattern re "/" path = some true :=
  matchPathPattern_root re hre path

/-- C14, amended, at the path "/a/b" with the concrete `regexp`. -/
theorem C14_root_matches_all_witness : matchPathPattern goRegexp "/" "/a/b" = some true :=
  C14_root_matches_all goRegexp goRegexp_literal "/a/b"

/-- C15: for every path, whatever its slashes and its depth, `guestUser.IsPathAllowed`
returns true: the single allow pattern "/" with an empty block list covers the whole
tree. -/
theorem C15_guest_whole_tree (re : Regexp) (hre : re.Literal) (path : String) :
    guestUser.IsPathAllowed re path = some true := by
  have hm := matchPathPattern_root re hre path
  simp [User.IsPathAllowed, User.IsAdmin, User.isPathBlocked, guestUser, rangeMatch, hm]

/-- C15 with the concrete `regexp`, at the empty path, the root and deeper paths. -/
theorem C15_guest_whole_tree_witness :
    guestUser.IsPathAllowed goRegexp "" = some true ∧
      guestUser.IsPathAllowed goRegexp "/" = some true ∧
      guestUser.IsPathAllowed goRegexp "a/b/c/" = some true ∧
      guestUser.IsPathAllowed goRegexp "//x" = some true :=
  ⟨C15_guest_whole_tree goRegexp goRegexp_literal "",
    C15_guest_whole_tree goRegexp goRegexp_literal "/",
    C15_guest_whole_tree goRegexp goRegexp_literal "a/b/c/",
    C15_guest_whole_tree goRegexp goRegexp_literal "//x"⟩

/-- C16: `guestUser` is no administrator; `guestUser.HasPermission(p)` is true exactly
for "file:view" and "dir:view"; and `requirePermission("dir:upload")` rejects every
request that acts as the guest with 403, whatever its path and whatever `regexp`
does. -/
theorem C16_guest_view_only (re : Regexp) (c : Context) (hguest : actingUser c = guestUser) :
    guestUser.IsAdmin = false ∧
      (∀ p, guestUser.HasPermission p = true ↔ p = "file:view" ∨ p = "dir:view") ∧
      RejectedWith 403 (requirePermission re PermissionDirUpload c) := by
  refine ⟨by decide, ?_, ?_⟩
  · intro p
    by_cases h1 : p = "file:view"
    · subst h1
      decide
    · by_cases h2 : p = "dir:view"
      · subst h2
        decide
      · have e1 : (p == "file:view") = false := by simpa using h1
        have e2 : (p == "dir:view") = false := by simpa using h2
        have hadmin : guestUser.IsAdmin = false := by decide
        simp only [User.HasPermission, hadmin]
        simp [guestUser, mapBool, List.lookup, PermissionFileView, PermissionDirView, h1, h2,
          e1, e2]
  · have hp : guestUser.HasPermission PermissionDirUpload = false := by decide
    simp only [requirePermission, hguest, hp]
    exact ⟨_, rfl, rfl, rfl⟩

/-- C16 at a request for "/any/where" that carries no token. -/
theorem C16_guest_view_only_witness :
    actingUser (cookieContext "") = guestUser ∧
      (guestUser.IsAdmin = false ∧
        (∀ p, guestUser.HasPermission p = true ↔ p = "file:view" ∨ p = "dir:view") ∧
        RejectedWith 403 (requirePermission goRegexp PermissionDirUpload (cookieContext ""))) :=
  ⟨rfl, C16_guest_view_only goRegexp (cookieContext "") rfl⟩

/-- C17 on the code: `alice` is blocked on "/public/secret/x" and allowed on
"/public//secret/x", although `filepath.Join` gives the handlers the same file for
both: only the ends of a path are trimmed, a doubled slash inside stays. -/
theorem C17_double_slash_differs :
    alice.IsPathAllowed goRegexp "/public/secret/x" = some false ∧
      alice.IsPathAllowed goRegexp "/public//secret/x" = some true ∧
      normalized "/public//secret/x" = "/public//secret/x".data ∧
      filepathJoin ["/srv/files", "/public//secret/x"] = "/srv/files/public/secret/x" ∧
      filepathJoin ["/srv/files", "/public/secret/x"] = "/srv/files/public/secret/x" := by
  decide

theorem dropWhile_replicate_append (f : Char → Bool) (x : Char) (hx : f x = true) (n : Nat)
    (l : List Char) : (List.replicate n x ++ l).dropWhile f = l.dropWhile f := by
  induction n with
  | zero => simp
  | succ n ih => simp [List.replicate_succ, List.dropWhile_cons, hx, ih]

theorem dropWhile_append_replicate (f : Char → Bool) (x : Char) (hx : f x = true) (n : Nat)
    (l : List Char) :
    ((l ++ List.replicate n x).dropWhile f).reverse.dropWhile f =
      (l.dropWhile f).reverse.dropWhile f := by
  induction l with
  | nil =>
    have h := dropWhile_replicate_append f x hx n []
    simp only [List.append_nil] at h
    simp [h]
  | cons y ys ih =>
    cases hy : f y with
    | true => simp [List.dropWhile_cons, hy, ih]
    | false =>
      simp only [List.cons_append, List.dropWhile_cons, hy, Bool.false_eq_true, if_false]
      simp only [List.reverse_cons, List.reverse_append, List.reverse_replicate,
        List.append_assoc]
      exact dropWhile_replicate_append f x hx n _

theorem stringsTrim_slashes (s : String) (a b : Nat) :
    stringsTrim (slashes a ++ s ++ slashes b) "/" = stringsTrim s "/" := by
  have hx : (fun c => "/".data.contains c) '/' = true := by decide
  unfold stringsTrim slashes
  simp only [String.data_append, List.append_assoc]
  rw [dropWhile_replicate_append _ '/' hx a, dropWhile_append_replicate _ '/' hx b]

/-- The first test of `matchPathPattern` is covered by the second: the result is a
function of the two normalized strings. -/
theorem matchPathPattern_normalized (re : Regexp) (pattern path : String) :
    matchPathPattern re pattern path =
      if "/" ++ stringsTrim pattern "/" = "/" ++ stringsTrim path "/" then some true
      else
        match re.mustCompile ("^" ++ ("/" ++ stringsTrim pattern "/")) with
        | none => none
        | some compile =>
          some (compile ("/" ++ stringsTrim path "/") ||
            stringsHasPrefix ("/" ++ stringsTrim pattern "/") ("/" ++ stringsTrim path "/")) := by
  unfold matchPathPattern
  split
  · rename_i h
    obtain ⟨h1, h2⟩ := h
    subst h1
    subst h2
    simp
  · rfl

theorem matchPathPattern_congr (re : Regexp) (p1 p2 q1 q2 : String)
    (hp : stringsTrim p1 "/" = stringsTrim p2 "/") (hq : stringsTrim q1 "/" = stringsTrim q2 "/") :
    matchPathPattern re p1 q1 = matchPathPattern re p2 q2 := by
  rw [matchPathPattern_normalized, matchPathPattern_normalized, hp, hq]

theorem rangeMatch_congr (re : Regexp) (q1 q2 : String) (patterns : List String)
    (hq : stringsTrim q1 "/" = stringsTrim q2 "/") :
    rangeMatch re q1 patterns = rangeMatch re q2 patterns := by
  induction patterns with
  | nil => rfl
  | cons b bs ih => simp only [rangeMatch, matchPathPattern_congr re b b q1 q2 rfl hq, ih]

theorem isPathAllowed_congr (re : Regexp) (u : User) (q1 q2 : String)
    (hq : stringsTrim q1 "/" = stringsTrim q2 "/") :
    u.IsPathAllowed re q1 = u.IsPathAllowed re q2 := by
  simp only [User.IsPathAllowed, User.isPathBlocked, rangeMatch_congr re q1 q2 _ hq]

/-- C18: `matchPathPattern` gives the same result, the same panic included, when
slashes are added to or removed from the start or the end of the pattern or of the
path; the empty path and "/" are treated alike; and for every user `IsPathAllowed`
gives the same for `path`, `path + "/"` and `"/" + path`. It holds whatever `regexp`
does. -/
theorem C18_slash_insensitive (re : Regexp) (pattern path : String) (a b c d : Nat) :
    matchPathPattern re (slashes a ++ pattern ++ slashes b) (slashes c ++ path ++ slashes d) =
        matchPathPattern re pattern path ∧
      matchPathPattern re pattern "" = matchPathPattern re pattern "/" ∧
      ∀ u : User, u.IsPathAllowed re (path ++ "/") = u.IsPathAllowed re path ∧
        u.IsPathAllowed re ("/" ++ path) = u.IsPathAllowed re path := by
  have hr : ∀ s : String, stringsTrim (s ++ "/") "/" = stringsTrim s "/" := by
    intro s
    have h := stringsTrim_slashes s 0 1
    have e : slashes 0 ++ s ++ slashes 1 = s ++ "/" := by
      apply String.ext
      simp [slashes, String.data_append]
    rw [e] at h
    exact h
  have hl : ∀ s : String, stringsTrim ("/" ++ s) "/" = stringsTrim s "/" := by
    intro s
    have h := stringsTrim_slashes s 1 0
    have e : slashes 1 ++ s ++ slashes 0 = "/" ++ s := by
      apply String.ext
      simp [slashes, String.data_append]
    rw [e] at h
    exact h
  refine ⟨?_, ?_, ?_⟩
  · exact matchPathPattern_congr re _ _ _ _ (stringsTrim_slashes pattern a b)
      (stringsTrim_slashes path c d)
  · exact matchPathPattern_congr re _ _ _ _ rfl (by decide)
  · intro u
    exact ⟨isPathAllowed_congr re u _ _ (hr path), isPathAllowed_congr re u _ _ (hl path)⟩

/-- C18 at the pattern "/public" and the path "/public/readme.txt" with the concrete
`regexp`. -/
theorem C18_slash_insensitive_witness :
    matchPathPattern goRegexp (slashes 2 ++ "/public" ++ slashes 1)
        (slashes 0 ++ "/public/readme.txt" ++ slashes 3) =
      matchPathPattern goRegexp "/public" "/public/readme.txt" ∧
    matchPathPattern goRegexp "/public" "" = matchPathPattern goRegexp "/public" "/" :=
  ⟨(C18_slash_insensitive goRegexp "/public" "/public/readme.txt" 2 1 0 3).1,
    (C18_slash_insensitive goRegexp "/public" "/public/readme.txt" 2 1 0 3).2.1⟩

theorem newFileManager_users (dir : String) (gen : Except String PrivateKey)
    (sha256Hex : String → String) (fm : FileManager)
    (h : NewFileManager dir gen sha256Hex = some fm) : fm.users = [] := by
  unfold NewFileManager at h
  split at h
  · cases h
  · simp only [Option.some.injEq] at h
    rw [← h]

/-- C19: `handleLogin` sets a cookie or writes a body only if the username is a key of
the users directory and the stored `EncryptPassword` equals `hashPassword(password)`.
When both hold and `generateJWTToken(username)` succeeds, the cookie `cookieName`
carries that token (max-age `maxAge`, path "/", HTTP-only), `users[username]` is stored
as the acting identity, and the answer is the JSON body with the token or the redirect
to "/file". For an absent username or a wrong password the whole answer is the redirect
to the login page: no call of `generateJWTToken`, no cookie, no body, no identity. A
manager as `NewFileManager` returns it has an empty directory, so nobody, the guest
included, can log in. -/
theorem C19_login_only_on_match (jwt : JWT) (marshal : List (String × String) → String)
    (fm : FileManager) (now1 now2 : Nat) (c : Context) :
    ((fm.handleLogin jwt marshal now1 now2 c).SetCookies ≠ c.SetCookies ∨
        (fm.handleLogin jwt marshal now1 now2 c).Body ≠ c.Body ∨
        (fm.handleLogin jwt marshal now1 now2 c).Keys ≠ c.Keys →
      ∃ user, fm.users.lookup (c.PostForm "username") = some user ∧
        user.EncryptPassword = fm.hashPassword (c.PostForm "password")) ∧
    (∀ user token, fm.users.lookup (c.PostForm "username") = some user →
      user.EncryptPassword = fm.hashPassword (c.PostForm "password") →
      fm.generateJWTToken jwt (c.PostForm "username") now1 now2 = .ok token →
      (fm.handleLogin jwt marshal now1 now2 c).SetCookies =
          c.SetCookies ++ [⟨fm.cookieName, token, fm.maxAge, "/", "", false, true⟩] ∧
        (fm.handleLogin jwt marshal now1 now2 c).Get "user" = some (.user user) ∧
        fm.handleLogin jwt marshal now1 now2 c =
          if c.GetHeader "Content-Type" = "application/json" then
            ((c.SetCookie fm.cookieName token fm.maxAge "/" "" false true).Set "user"
              (.user user)).JSON 200
                (marshal [("token", token), ("username", c.PostForm "username"),
                  ("message", "登录成功")])
          else
            ((c.SetCookie fm.cookieName token fm.maxAge "/" "" false true).Set "user"
              (.user user)).Redirect 303 "/file") ∧
    (fm.users.lookup (c.PostForm "username") = none →
      fm.handleLogin jwt marshal now1 now2 c =
          c.Redirect 303 "/login?error=<p class=\x27error\x27>账户不存在或账户名输入错误</p>" ∧
        (fm.handleLogin jwt marshal now1 now2 c).SetCookies = c.SetCookies ∧
        (fm.handleLogin jwt marshal now1 now2 c).Body = c.Body ∧
        (fm.handleLogin jwt marshal now1 now2 c).Keys = c.Keys ∧
        (fm.handleLogin jwt marshal now1 now2 c).Status = 303) ∧
    (∀ user, fm.users.lookup (c.PostForm "username") = some user →
      user.EncryptPassword ≠ fm.hashPassword (c.PostForm "password") →
      fm.handleLogin jwt marshal now1 now2 c =
          c.Redirect 303 "/login?error=<p class=\x27error\x27>密码输入错误</p>" ∧
        (fm.handleLogin jwt marshal now1 now2 c).SetCookies = c.SetCookies ∧
        (fm.handleLogin jwt marshal now1 now2 c).Body = c.Body ∧
        (fm.handleLogin jwt marshal now1 now2 c).Keys = c.Keys ∧
        (fm.handleLogin jwt marshal now1 now2 c).Status = 303) ∧
    (∀ dir gen sha256Hex, NewFileManager dir gen sha256Hex = some fm →
      fm.handleLogin jwt marshal now1 now2 c =
          c.Redirect 303 "/login?error=<p class=\x27error\x27>账户不存在或账户名输入错误</p>" ∧
        (fm.handleLogin jwt marshal now1 now2 c).SetCookies = c.SetCookies ∧
        (fm.handleLogin jwt marshal now1 now2 c).Body = c.Body ∧
        (fm.handleLogin jwt marshal now1 now2 c).Keys = c.Keys) := by
  have habsent : fm.users.lookup (c.PostForm "username") = none →
      fm.handleLogin jwt marshal now1 now2 c =
        c.Redirect 303 "/login?error=<p class=\x27error\x27>账户不存在或账户名输入错误</p>" := by
    intro h
    simp only [FileManager.handleLogin, h]
  have hwrong : ∀ user, fm.users.lookup (c.PostForm "username") = some user →
      user.EncryptPassword ≠ fm.hashPassword (c.PostForm "password") →
      fm.handleLogin jwt marshal now1 now2 c =
        c.Redirect 303 "/login?error=<p class=\x27error\x27>密码输入错误</p>" := by
    intro user h hne
    simp only [FileManager.handleLogin, h]
    rw [if_pos hne]
  have hsame : ∀ location, ¬ ((c.Redirect 303 location).SetCookies ≠ c.SetCookies ∨
      (c.Redirect 303 location).Body ≠ c.Body ∨ (c.Redirect 303 location).Keys ≠ c.Keys) := by
    intro location h
    rcases h with h | h | h <;> exact h rfl
  refine ⟨?_, ?_, ?_, ?_, ?_⟩
  · intro hset
    cases hl : fm.users.lookup (c.PostForm "username") with
    | none =>
      rw [habsent hl] at hset
      exact absurd hset (hsame _)
    | some user =>
      by_cases hpw : user.EncryptPassword = fm.hashPassword (c.PostForm "password")
      · exact ⟨user, rfl, hpw⟩
      · rw [hwrong user hl hpw] at hset
        exact absurd hset (hsame _)
  · intro user token hl hpw hgen
    simp only [FileManager.handleLogin, hl, hpw, hgen]
    simp only [ne_eq, not_true_eq_false, if_false]
    have hh : ((c.SetCookie fm.cookieName token fm.maxAge "/" "" false true).Set "user"
        (.user user)).GetHeader "Content-Type" = c.GetHeader "Content-Type" := rfl
    rw [hh]
    split <;> exact ⟨rfl, rfl, rfl⟩
  · intro hl
    rw [habsent hl]
    exact ⟨rfl, rfl, rfl, rfl, rfl⟩
  · intro user hl hpw
    rw [hwrong user hl hpw]
    exact ⟨rfl, rfl, rfl, rfl, rfl⟩
  · intro dir gen sha256Hex hnew
    have hl : fm.users.lookup (c.PostForm "username") = none := by
      rw [newFileManager_users dir gen sha256Hex fm hnew]
      rfl
    rw [habsent hl]
    exact ⟨rfl, rfl, rfl, rfl⟩

/-- C19 at `exampleManager`: "alice" with her password gets the cookie with her token
and becomes the acting identity; "alice" with a wrong password and the unknown "guest"
get the redirect to the login page and nothing else. -/
theorem C19_login_only_on_match_witness :
    ((exampleManager.handleLogin plainJWT plainMarshal exampleNow exampleNow
          (loginContext "alice" "secret")).SetCookies =
        [⟨"fm_session", exampleToken "alice" exampleNow, 36000, "/", "", false, true⟩] ∧
      (exampleManager.handleLogin plainJWT plainMarshal exampleNow exampleNow
          (loginContext "alice" "secret")).Get "user" = some (.user alice)) ∧
    exampleManager.handleLogin plainJWT plainMarshal exampleNow exampleNow
        (loginContext "alice" "guess") =
      (loginContext "alice" "guess").Redirect 303
        "/login?error=<p class=\x27error\x27>密码输入错误</p>" ∧
    exampleManager.handleLogin plainJWT plainMarshal exampleNow exampleNow
        (loginContext "guest" "") =
      (loginContext "guest" "").Redirect 303
        "/login?error=<p class=\x27error\x27>账户不存在或账户名输入错误</p>" :=
  have h := (C19_login_only_on_match plainJWT plainMarshal exampleManager exampleNow exampleNow
    (loginContext "alice" "secret")).2.1 alice (exampleToken "alice" exampleNow) rfl rfl rfl
  ⟨⟨h.1, h.2.1⟩,
    ((C19_login_only_on_match plainJWT plainMarshal exampleManager exampleNow exampleNow
      (loginContext "alice" "guess")).2.2.2.1 alice rfl (by decide)).1,
    ((C19_login_only_on_match plainJWT plainMarshal exampleManager exampleNow exampleNow
      (loginContext "guest" "")).2.2.1 rfl).1⟩

/-- C20 on the code: `handleLogout` always adds the header that deletes the session
cookie (empty value, max-age -1, path "/"). Without `Content-Type: application/json`
it stores `guestUser` as the acting identity and redirects to "/file"; with that
header it answers 200 and returns before the identity is reset: the keys of the
context stay as they were. -/
theorem C20_logout_json_skips_reset (jwt : JWT) (marshal : List (String × String) → String)
    (fm : FileManager) (now : Nat) (c : Context) :
    (fm.handleLogout jwt marshal now c).SetCookies =
        c.SetCookies ++ [⟨fm.cookieName, "", -1, "/", "", false, true⟩] ∧
    (c.GetHeader "Content-Type" ≠ "application/json" →
      (fm.handleLogout jwt marshal now c).Get "user" = some (.user guestUser) ∧
        (fm.handleLogout jwt marshal now c).Status = 303 ∧
        (fm.handleLogout jwt marshal now c).Location = "/file") ∧
    (c.GetHeader "Content-Type" = "application/json" →
      (fm.handleLogout jwt marshal now c).Keys = c.Keys ∧
        (fm.handleLogout jwt marshal now c).Status = 200) := by
  have hh : (c.SetCookie fm.cookieName "" (-1) "/" "" false true).GetHeader "Content-Type" =
      c.GetHeader "Content-Type" := rfl
  refine ⟨?_, ?_, ?_⟩
  · simp only [FileManager.handleLogout]
    split <;> rfl
  · intro hne
    simp only [FileManager.handleLogout, hh, hne, if_false]
    exact ⟨rfl, rfl, rfl⟩
  · intro hjson
    simp only [FileManager.handleLogout, hh, hjson, if_true]
    exact ⟨rfl, rfl⟩

/-- C20 on the code, at a logout request with `Content-Type: application/json`: the
cookie is deleted and no identity is stored. -/
theorem C20_logout_json_skips_reset_witness :
    (exampleManager.handleLogout plainJWT plainMarshal exampleNow jsonLogoutContext).SetCookies =
        [⟨"fm_session", "", -1, "/", "", false, true⟩] ∧
      (exampleManager.handleLogout plainJWT plainMarshal exampleNow jsonLogoutContext).Get "user" =
        none ∧
      (exampleManager.handleLogout plainJWT plainMarshal exampleNow
        (jsonLogoutContext.Set "user" (.user alice))).Get "user" = some (.user alice) :=
  ⟨(C20_logout_json_skips_reset plainJWT plainMarshal exampleManager exampleNow
      jsonLogoutContext).1,
    by decide, by decide⟩

/-- C21, as stated, fails: `generateJWTToken` reads the clock twice, first for
`ExpiresAt` and then for `IssuedAt`. With the first reading one nanosecond before a
full second and the second reading at it, the signed claims have `ExpiresAt` only
86399 seconds after `IssuedAt`. -/
theorem C21_counterexample :
    exampleManager.generateJWTToken plainJWT "alice"
        (1700000000 * Second + 999999999) (1700000001 * Second) =
      plainJWT.signedStringRS256 boundaryClaims exampleManager.privateKey ∧
    boundaryClaims.RegisteredClaims.IssuedAt = some ⟨1700000001 * Second⟩ ∧
    boundaryClaims.RegisteredClaims.ExpiresAt =
      some ⟨1700000001 * Second + 86399 * Second⟩ := by
  refine ⟨?_, rfl, by decide⟩
  have h1 : NewNumericDate (1700000000 * Second + 999999999 + 24 * Hour) =
      ⟨1700086400 * Second⟩ := by decide
  have h2 : NewNumericDate (1700000001 * Second) = ⟨1700000001 * Second⟩ := by decide
  simp only [FileManager.generateJWTToken, h1, h2]
  rfl

/-- C21, amended: when the two readings of the clock fall into the same second,
`generateJWTToken(u)` signs, with RS256 and the manager's private key, the claims with
`Username = u`, `IssuedAt` the reading truncated to the second, `ExpiresAt` exactly
86400 seconds after `IssuedAt` and `Issuer = cookieName + "-jwt"`. -/
theorem C21_claims_same_second (jwt : JWT) (fm : FileManager) (u : String) (now1 now2 : Nat)
    (hsame : now1 / Second = now2 / Second) :
    fm.generateJWTToken jwt u now1 now2 =
      jwt.signedStringRS256
        { Username := u,
          RegisteredClaims :=
            { Issuer := fm.cookieName ++ "-jwt",
              IssuedAt := some ⟨now2 / Second * Second⟩,
              ExpiresAt := some ⟨now2 / Second * Second + 86400 * Second⟩ } }
        fm.privateKey := by
  have hs : 0 < Second := by decide
  have hexp : NewNumericDate (now1 + 24 * Hour) = ⟨now2 / Second * Second + 86400 * Second⟩ := by
    have h24 : 24 * Hour = 86400 * Second := by decide
    simp only [NewNumericDate, h24, Nat.add_mul_div_right _ _ hs, hsame, Nat.add_mul]
  unfold FileManager.generateJWTToken
  rw [hexp]
  rfl

/-- C21, amended, at `exampleManager` with both readings in one second. -/
theorem C21_claims_same_second_witness :
    exampleNow / Second = (exampleNow + 1000) / Second ∧
      exampleManager.generateJWTToken plainJWT "alice" exampleNow (exampleNow + 1000) =
        plainJWT.signedStringRS256
          { Username := "alice",
            RegisteredClaims :=
              { Issuer := exampleManager.cookieName ++ "-jwt",
                IssuedAt := some ⟨(exampleNow + 1000) / Second * Second⟩,
                ExpiresAt := some ⟨(exampleNow + 1000) / Second * Second + 86400 * Second⟩ } }
          exampleManager.privateKey :=
  ⟨by decide,
    C21_claims_same_second plainJWT exampleManager "alice" exampleNow (exampleNow + 1000)
      (by decide)⟩

theorem normalized_eq (s : String) : ("/" ++ stringsTrim s "/").data = normalized s := by
  rw [slash_append]
  rfl

/-- A path whose normalized form is a prefix of the normalized pattern matches it, by
the `strings.HasPrefix` test, when the pattern compiles. -/
theorem matchPathPattern_of_path_prefix (re : Regexp) (pattern path : String)
    (hvalid : re.ValidPattern pattern)
    (hpre : (normalized path).isPrefixOf (normalized pattern) = true) :
    matchPathPattern re pattern path = some true := by
  rw [matchPathPattern_normalized]
  split
  · rfl
  · unfold Regexp.ValidPattern at hvalid
    obtain ⟨compiled, hc⟩ := Option.isSome_iff_exists.mp hvalid
    rw [hc]
    simp only [stringsHasPrefix, normalized_eq, hpre, Bool.or_true]

/-- C22: for a pattern made of letters, digits, `/`, `-` and `_` and every path,
`matchPathPattern` returns, and returns true exactly when the normalized pattern is a
string prefix of the normalized path or the normalized path is a string prefix of the
normalized pattern. The `regexp` is any one that treats literal text as such. -/
theorem C22_prefix_either_way (re : Regexp) (hre : re.Literal) (pattern path : String)
    (hplain : ∀ c ∈ pattern.data, isPlain c = true) :
    ∃ b, matchPathPattern re pattern path = some b ∧
      (b = true ↔ (normalized pattern <+: normalized path ∨
        normalized path <+: normalized pattern)) := by
  refine ⟨_, matchPathPattern_plain re hre pattern path
    (fun c hc => isMeta_of_isPlain c (hplain c hc)), ?_⟩
  simp [List.isPrefixOf_iff_prefix]

/-- C22 with the concrete `regexp`, at the pattern "/public/team" and the path "/pub". -/
theorem C22_prefix_either_way_witness :
    (∀ c ∈ "/public/team".data, isPlain c = true) ∧
      matchPathPattern goRegexp "/public/team" "/pub" = some true ∧
      ∃ b, matchPathPattern goRegexp "/public/team" "/pub" = some b ∧
        (b = true ↔ (normalized "/public/team" <+: normalized "/pub" ∨
          normalized "/pub" <+: normalized "/public/team")) :=
  ⟨by decide, by decide,
    C22_prefix_either_way goRegexp goRegexp_literal "/public/team" "/pub" (by decide)⟩

/-- C23: for a user who is no administrator, with valid block patterns: when the block
list is not empty, `IsPathAllowed("")` and `IsPathAllowed("/")` are false whatever
the allow list holds; and every path whose normalized form is a string prefix of a
normalized block pattern is denied. -/
theorem C23_prefix_of_block_denied (re : Regexp) (u : User) (hrole : u.Role ≠ "admin")
    (hvalid : ∀ b ∈ u.BaseRolePathBlocking, re.ValidPattern b) :
    (u.BaseRolePathBlocking ≠ [] →
      u.IsPathAllowed re "" = some false ∧ u.IsPathAllowed re "/" = some false) ∧
    (∀ path, (∃ b ∈ u.BaseRolePathBlocking, normalized path <+: normalized b) →
      u.IsPathAllowed re path = some false) := by
  have key : ∀ path, (∃ b ∈ u.BaseRolePathBlocking, normalized path <+: normalized b) →
      u.IsPathAllowed re path = some false := by
    intro path hex
    obtain ⟨b, hb, hpre⟩ := hex
    have hm := matchPathPattern_of_path_prefix re b path (hvalid b hb)
      (List.isPrefixOf_iff_prefix.mpr hpre)
    have hr := rangeMatch_true_of_mem re path u.BaseRolePathBlocking hvalid ⟨b, hb, hm⟩
    simp [User.IsPathAllowed, isAdmin_of_not_role u hrole,
      isPathBlocked_of_not_admin re u path hrole, hr]
  refine ⟨?_, key⟩
  intro hne
  obtain ⟨b, hb⟩ := List.exists_mem_of_ne_nil _ hne
  have hroot : ∀ s : String, normalized s = ['/'] → normalized s <+: normalized b := by
    intro s hs
    rw [hs]
    exact ⟨(stringsTrim b "/").data, rfl⟩
  exact ⟨key "" ⟨b, hb, hroot "" (by decide)⟩, key "/" ⟨b, hb, hroot "/" (by decide)⟩⟩

/-- C23 at `alice`, whose block pattern is "/public/secret": the root, "/public" and
"/pub" are denied although her allow pattern "/public" matches the last two. -/
theorem C23_prefix_of_block_denied_witness :
    alice.Role ≠ "admin" ∧ (∀ b ∈ alice.BaseRolePathBlocking, goRegexp.ValidPattern b) ∧
      matchPathPattern goRegexp "/public" "/pub" = some true ∧
      alice.IsPathAllowed goRegexp "/public" = some false ∧
      alice.IsPathAllowed goRegexp "/pub" = some false ∧
      alice.IsPathAllowed goRegexp "/" = some false :=
  have h := C23_prefix_of_block_denied goRegexp alice (by decide) (by decide)
  ⟨by decide, by decide, by decide,
    h.2 "/public" ⟨"/public/secret", by decide, List.isPrefixOf_iff_prefix.mp (by decide)⟩,
    h.2 "/pub" ⟨"/public/secret", by decide, List.isPrefixOf_iff_prefix.mp (by decide)⟩,
    (h.1 (by decide)).2⟩

/-- C24 on the code: `IsPathAllowed` reads the path as text and `..` stays in it.
`alice`, confined to "/public", is allowed on "/public/../private/x", which
`filepath.Join` resolves to a file under "/private", where she is not allowed; the
guest is allowed on "/../x", which resolves to "/srv/x", outside the root directory
"/srv/files". -/
theorem C24_dotdot_leaves_scope :
    exampleManager.rootDir = "/srv/files" ∧
      alice.IsPathAllowed goRegexp "/public/../private/x" = some true ∧
      filepathJoin [exampleManager.rootDir, "/public/../private/x"] = "/srv/files/private/x" ∧
      alice.IsPathAllowed goRegexp "/private/x" = some false ∧
      guestUser.IsPathAllowed goRegexp "/../x" = some true ∧
      filepathJoin [exampleManager.rootDir, "/../x"] = "/srv/x" := by
  decide

/-- C28 on the code: after `SetGuestUser(g)` the field `guestUser` of the manager is
`g`, but a request without a token, or with a token that does not validate, is given
the package variable `guestUser`, whatever `g` is: `requirePermission` rejects
"dir:upload" with 403 also when `g` holds it. -/
theorem C28_configured_guest_unused (jwt : JWT) (re : Regexp) (fm : FileManager) (g : User)
    (now : Nat) (c : Context)
    (htoken : ((fm.SetGuestUser g).extractTokenFromRequest c = "" ∧ c.Get "user" = none) ∨
      ((fm.SetGuestUser g).extractTokenFromRequest c ≠ "" ∧
        ∃ err, (fm.SetGuestUser g).validateJWTToken jwt
          ((fm.SetGuestUser g).extractTokenFromRequest c) now = .error err)) :
    (fm.SetGuestUser g).guestUser = g ∧
      actingUser ((fm.SetGuestUser g).jwtAuthMiddleware jwt now c) = guestUser ∧
      RejectedWith 403 (requirePermission re PermissionDirUpload
        ((fm.SetGuestUser g).jwtAuthMiddleware jwt now c)) := by
  have hact : actingUser ((fm.SetGuestUser g).jwtAuthMiddleware jwt now c) = guestUser := by
    rcases htoken with ⟨hempty, hfresh⟩ | ⟨hne, err, herr⟩
    · simp [FileManager.jwtAuthMiddleware, hempty, actingUser, hfresh]
    · simp only [FileManager.jwtAuthMiddleware, herr]
      simp [hne, actingUser, Context.Get, Context.Set]
  refine ⟨rfl, hact, ?_⟩
  have hp : guestUser.HasPermission PermissionDirUpload = false := by decide
  simp only [requirePermission, hact, hp]
  exact ⟨_, rfl, rfl, rfl⟩

/-- C28 on the code, at `exampleManager` after `SetGuestUser(uploadGuest)` and a request
without a token: `uploadGuest` may upload, the request may not. -/
theorem C28_configured_guest_unused_witness :
    uploadGuest.HasPermission PermissionDirUpload = true ∧
      ((exampleManager.SetGuestUser uploadGuest).guestUser = uploadGuest ∧
        actingUser ((exampleManager.SetGuestUser uploadGuest).jwtAuthMiddleware plainJWT
          exampleNow (cookieContext "")) = guestUser ∧
        RejectedWith 403 (requirePermission goRegexp PermissionDirUpload
          ((exampleManager.SetGuestUser uploadGuest).jwtAuthMiddleware plainJWT exampleNow
            (cookieContext "")))) :=
  ⟨by decide,
    C28_configured_guest_unused plainJWT goRegexp exampleManager uploadGuest exampleNow
      (cookieContext "") (Or.inl ⟨rfl, rfl⟩)⟩

/-- C29, as stated, fails: "^/(" and "^/[" do not compile, so `matchPathPattern` panics
on the patterns "(" and "[", and `IsPathAllowed` panics for a user who has one of them
in the block list or in the allow list. -/
theorem C29_counterexample :
    goCompile "^/(" = .error .missingParen ∧ goCompile "^/[" = .error .missingBracket ∧
      matchPathPattern goRegexp "(" "/x" = none ∧ matchPathPattern goRegexp "[" "/x" = none ∧
      brokenBlockUser.IsPathAllowed goRegexp "/x" = none ∧
      brokenAllowUser.IsPathAllowed goRegexp "/x" = none := by
  decide

/-- C29, amended: `matchPathPattern` returns a boolean for every path when the pattern
is a valid regular expression, and `IsPathAllowed` returns a boolean for every path
when the user is an administrator or all patterns of the two lists are valid. -/
theorem C29_total_on_valid (re : Regexp) (u : User) (path : String) :
    (∀ pattern, re.ValidPattern pattern → ∃ b, matchPathPattern re pattern path = some b) ∧
    (u.Role = "admin" → u.IsPathAllowed re path = some true) ∧
    ((∀ p ∈ u.BaseRolePathBlocking, re.ValidPattern p) →
      (∀ p ∈ u.BaseRolePathRestrictions, re.ValidPattern p) →
      ∃ b, u.IsPathAllowed re path = some b) := by
  refine ⟨fun pattern h => matchPathPattern_of_valid re pattern path h, ?_, ?_⟩
  · intro hadmin
    simp [User.IsPathAllowed, isAdmin_of_role u hadmin]
  · intro hblock hallow
    by_cases hrole : u.Role = "admin"
    · exact ⟨true, by simp [User.IsPathAllowed, isAdmin_of_role u hrole]⟩
    · obtain ⟨r, hr⟩ := rangeMatch_of_valid re path u.BaseRolePathBlocking hblock
      obtain ⟨a, ha⟩ := rangeMatch_of_valid re path u.BaseRolePathRestrictions hallow
      cases r with
      | true =>
        exact ⟨false, by
          simp [User.IsPathAllowed, isAdmin_of_not_role u hrole,
            isPathBlocked_of_not_admin re u path hrole, hr]⟩
      | false =>
        exact ⟨a, by
          simp [User.IsPathAllowed, isAdmin_of_not_role u hrole,
            isPathBlocked_of_not_admin re u path hrole, hr, ha]⟩

/-- C29, amended, at `alice`, whose patterns compile. -/
theorem C29_total_on_valid_witness :
    (∀ p ∈ alice.BaseRolePathBlocking, goRegexp.ValidPattern p) ∧
      (∀ p ∈ alice.BaseRolePathRestrictions, goRegexp.ValidPattern p) ∧
      ∃ b, alice.IsPathAllowed goRegexp "/public/readme.txt" = some b :=
  ⟨by decide, by decide,
    (C29_total_on_valid goRegexp alice "/public/readme.txt").2.2 (by decide) (by decide)⟩

theorem contextUser_of_get (c : Context) (u : User) (h : c.Get "user" = some (.user u)) :
    contextUser c = some u := by
  simp [contextUser, h]

/-- C25 on the code: the route GET /file runs `requirePermission("dir:view")` and
`handleFileManager`. For a user who is no administrator, holds "dir:view" and not
"file:view", on an allowed path that names a regular file, the request is answered
with 200 and the viewer page that holds the content of the file: "file:view" is not
asked for. -/
theorem C25_file_view_not_required (re : Regexp) (fs : FS) (render : Page → String)
    (fm : FileManager) (c : Context) (u : User) (content : String)
    (huser : c.Get "user" = some (.user u)) (hrun : c.Aborted = false)
    (hrole : u.Role ≠ "admin")
    (hnoview : u.Permissions.lookup "file:view" ≠ some true)
    (hdir : u.Permissions.lookup "dir:view" = some true)
    (hallowed : u.IsPathAllowed re (c.Query "path") = some true)
    (hfile : fs.stat (filepathJoin [fm.rootDir, c.Query "path"]) = .file)
    (hread : fs.readFile (filepathJoin [fm.rootDir, c.Query "path"]) = .ok content)
    (hmode : c.Query "edit" ≠ "true") :
    u.HasPermission PermissionFileView = false ∧
      runChain [requirePermission re PermissionDirView, fm.handleFileManager re fs render] c =
        some ((c.Set "user" (.user u)).Data 200 "text/html; charset=utf-8"
          (render (.viewer (c.Query "path")
            (.ok (stringsReplaceAll (stringsReplaceAll (stringsReplaceAll
              (stringsReplaceAll content '"' "&quot;") '<' "&lt;") '>' "&gt;") '\n' "<br>"))
            u))) := by
  have hv : u.HasPermission PermissionFileView = false := by
    rw [hasPermission_of_not_admin u _ hrole]
    unfold mapBool PermissionFileView
    cases hl : u.Permissions.lookup "file:view" with
    | none => rfl
    | some b =>
      cases b with
      | false => rfl
      | true => exact absurd hl hnoview
  have hd : u.HasPermission PermissionDirView = true := by
    rw [hasPermission_of_not_admin u _ hrole]
    simp [mapBool, PermissionDirView, hdir]
  refine ⟨hv, ?_⟩
  have hreq : requirePermission re PermissionDirView c = some (c.Set "user" (.user u)) := by
    rw [requirePermission_of_get re _ c u huser, hd, hallowed]
    rfl
  have hab : (c.Set "user" (.user u)).Aborted = false := hrun
  have hcu : contextUser (c.Set "user" (.user u)) = some u := contextUser_of_get _ u rfl
  simp only [runChain, hrun, hreq, hab, Bool.false_eq_true, if_false]
  simp only [FileManager.handleFileManager, hcu, query_set, FileManager.generateFileManagerHTML,
    hfile, hmode, decide_False, generateFileViewerHTML, hread, Bool.false_eq_true, if_false]

/-- C25 on the code, at `lister`, who holds "dir:view" only, and the file
"/public/readme.txt". -/
theorem C25_file_view_not_required_witness :
    lister.Permissions.lookup "file:view" = none ∧
      lister.HasPermission PermissionFileView = false ∧
      runChain [requirePermission goRegexp PermissionDirView,
          exampleManager.handleFileManager goRegexp exampleFS plainRender]
          (contextOf lister "/public/readme.txt") =
        some (((contextOf lister "/public/readme.txt").Set "user" (.user lister)).Data 200
          "text/html; charset=utf-8" "view /public/readme.txt: a &lt; b") :=
  have h := C25_file_view_not_required goRegexp exampleFS plainRender exampleManager
    (contextOf lister "/public/readme.txt") lister "a < b" rfl rfl (by decide) (by decide)
    (by decide) (by decide) (by decide) (by decide) (by decide)
  ⟨by decide, h.1, h.2⟩

theorem checkAction_pass (re : Regexp) (u : User) (c : Context) (action path : String)
    (isDir pathExists : Bool)
    (h : checkAction re u c action path isDir pathExists = some none) :
    (action = "edit" ∧ pathExists = true ∧ isDir = false ∧
        u.HasPermission PermissionFileEdit = true) ∨
      (action = "create" ∧ c.PostForm "name" ≠ "" ∧ c.PostForm "is_dir" = "true" ∧
        u.HasPermission PermissionDirCreate = true) ∨
      (action = "create" ∧ c.PostForm "name" ≠ "" ∧ c.PostForm "is_dir" ≠ "true" ∧
        u.HasPermission PermissionDirUpload = true) ∨
      (action = "delete" ∧ pathExists = true ∧ isDir = true ∧
        u.HasPermission PermissionDirDelete = true) ∨
      (action = "delete" ∧ pathExists = true ∧ isDir = false ∧
        u.HasPermission PermissionFileDelete = true) ∨
      (action = "rename" ∧ pathExists = true ∧ isDir = true ∧
        u.HasPermission PermissionDirRename = true) ∨
      (action = "rename" ∧ pathExists = true ∧ isDir = false ∧
        u.HasPermission PermissionFileRename = true) := by
  unfold checkAction at h
  split_ifs at h <;> simp_all
  all_goals (split at h <;> simp_all)

theorem handleFileAction_failed (re : Regexp) (fs : FS) (queryEscape : String → String)
    (fm : FileManager) (c : Context) (u : User) (err : String)
    (huser : contextUser c = some u)
    (hstat : fs.stat (filepathJoin [fm.rootDir, c.PostForm "path"]) = .failed err) :
    fm.handleFileAction re fs queryEscape c =
      some (c.String 500 ("获取文件信息失败: " ++ err), []) := by
  simp only [FileManager.handleFileAction, huser, hstat]

theorem handleFileAction_ok (re : Regexp) (fs : FS) (queryEscape : String → String)
    (fm : FileManager) (c : Context) (u : User)
    (huser : contextUser c = some u)
    (hstat : ∀ err, fs.stat (filepathJoin [fm.rootDir, c.PostForm "path"]) ≠ .failed err) :
    fm.handleFileAction re fs queryEscape c =
      match createPathCheck re u c (c.PostForm "action") (c.PostForm "path") with
      | none => none
      | some (some answered) => some (answered, [])
      | some none =>
        match checkAction re u c (c.PostForm "action") (c.PostForm "path")
            (decide (fs.stat (filepathJoin [fm.rootDir, c.PostForm "path"]) = .dir))
            (match fs.stat (filepathJoin [fm.rootDir, c.PostForm "path"]) with
              | .notExist _ => false
              | _ => true) with
        | none => none
        | some (some answered) => some (answered, [])
        | some none =>
          some (performAction fs queryEscape c (c.PostForm "action") (c.PostForm "path")
            (filepathJoin [fm.rootDir, c.PostForm "path"])) := by
  cases hst : fs.stat (filepathJoin [fm.rootDir, c.PostForm "path"]) with
  | failed err => exact absurd hst (hstat err)
  | file => simp only [FileManager.handleFileAction, huser, hst]
  | dir => simp only [FileManager.handleFileAction, huser, hst]
  | notExist err => simp only [FileManager.handleFileAction, huser, hst]

theorem performAction_unknown (fs : FS) (queryEscape : String → String) (c : Context)
    (action path fullPath : String) (h1 : action ≠ "edit") (h2 : action ≠ "create")
    (h3 : action ≠ "delete") (h4 : action ≠ "rename") :
    (performAction fs queryEscape c action path fullPath).2 = [] := by
  simp [performAction, h1, h2, h3, h4]


theorem createPathCheck_other (re : Regexp) (u : User) (c : Context) (action path : String)
    (h : action ≠ "create") : createPathCheck re u c action path = some none := by
  simp [createPathCheck, h]

theorem checkAction_unknown (re : Regexp) (u : User) (c : Context) (action path : String)
    (isDir pathExists : Bool) (h1 : action ≠ "edit") (h2 : action ≠ "create")
    (h3 : action ≠ "delete") (h4 : action ≠ "rename") :
    checkAction re u c action path isDir pathExists = some (some (c.String 400 "未知操作")) := by
  simp [checkAction, h1, h2, h3, h4]

/-- What `handleFileAction` returns with a list of calls that is not empty: the stat
did not fail, both checks passed, and the calls are those of `performAction`. -/
theorem handleFileAction_ops (re : Regexp) (fs : FS) (queryEscape : String → String)
    (fm : FileManager) (c : Context) (u : User) (c1 : Context) (ops : List FileOp)
    (huser : contextUser c = some u)
    (hres : fm.handleFileAction re fs queryEscape c = some (c1, ops)) (hops : ops ≠ []) :
    (∀ err, fs.stat (filepathJoin [fm.rootDir, c.PostForm "path"]) ≠ .failed err) ∧
      createPathCheck re u c (c.PostForm "action") (c.PostForm "path") = some none ∧
      checkAction re u c (c.PostForm "action") (c.PostForm "path")
        (decide (fs.stat (filepathJoin [fm.rootDir, c.PostForm "path"]) = .dir))
        (match fs.stat (filepathJoin [fm.rootDir, c.PostForm "path"]) with
          | .notExist _ => false
          | _ => true) = some none ∧
      performAction fs queryEscape c (c.PostForm "action") (c.PostForm "path")
        (filepathJoin [fm.rootDir, c.PostForm "path"]) = (c1, ops) := by
  have hstat : ∀ err, fs.stat (filepathJoin [fm.rootDir, c.PostForm "path"]) ≠ .failed err := by
    intro err he
    rw [handleFileAction_failed re fs queryEscape fm c u err huser he] at hres
    simp only [Option.some.injEq, Prod.mk.injEq] at hres
    exact hops hres.2.symm
  refine ⟨hstat, ?_⟩
  rw [handleFileAction_ok re fs queryEscape fm c u huser hstat] at hres
  cases hcp : createPathCheck re u c (c.PostForm "action") (c.PostForm "path") with
  | none => simp [hcp] at hres
  | some r =>
    cases r with
    | some a =>
      simp only [hcp, Option.some.injEq, Prod.mk.injEq] at hres
      exact absurd hres.2.symm hops
    | none =>
      simp only [hcp] at hres
      cases hca : checkAction re u c (c.PostForm "action") (c.PostForm "path")
        (decide (fs.stat (filepathJoin [fm.rootDir, c.PostForm "path"]) = .dir))
        (match fs.stat (filepathJoin [fm.rootDir, c.PostForm "path"]) with
          | .notExist _ => false
          | _ => true) with
      | none => simp [hca] at hres
      | some r =>
        cases r with
        | some a =>
          simp only [hca, Option.some.injEq, Prod.mk.injEq] at hres
          exact absurd hres.2.symm hops
        | none =>
          simp only [hca, Option.some.injEq] at hres
          exact ⟨rfl, rfl, hres⟩


/-- C26 as stated fails: when `os.Stat` of the target fails with an error that is not
`IsNotExist`, a request with the unknown action "chmod" is answered with 500, not with
400. Nothing on disk is changed. -/
theorem C26_counterexample :
    exampleManager.handleFileAction goRegexp deniedFS id
        chmodRequest =
      some (chmodRequest.String 500
        "获取文件信息失败: permission denied", []) ∧
    (chmodRequest.String 500
        "获取文件信息失败: permission denied").Status ≠ 400 := by
  decide

/-- C26, amended: `handleFileAction` makes a changing call on the file system only if
the acting user holds the capability of the action and of the kind of the target:
"edit" needs file:edit and a target that is a regular file; "create" needs dir:create
when `is_dir` is "true" and dir:upload otherwise; "delete" needs dir:delete on a
directory and file:delete on a file; "rename" needs dir:rename on a directory and
file:rename on a file. Every other action makes no call and is answered with 400, or
with 500 when `os.Stat` of the target fails with an error other than not-exist. -/
theorem C26_action_needs_capability (re : Regexp) (fs : FS) (queryEscape : String → String)
    (fm : FileManager) (c : Context) (u : User) (c1 : Context) (ops : List FileOp)
    (huser : contextUser c = some u)
    (hres : fm.handleFileAction re fs queryEscape c = some (c1, ops)) :
    (ops ≠ [] →
      (c.PostForm "action" = "edit" ∧
          fs.stat (filepathJoin [fm.rootDir, c.PostForm "path"]) = .file ∧
          u.HasPermission PermissionFileEdit = true) ∨
        (c.PostForm "action" = "create" ∧ c.PostForm "is_dir" = "true" ∧
          u.HasPermission PermissionDirCreate = true) ∨
        (c.PostForm "action" = "create" ∧ c.PostForm "is_dir" ≠ "true" ∧
          u.HasPermission PermissionDirUpload = true) ∨
        (c.PostForm "action" = "delete" ∧
          fs.stat (filepathJoin [fm.rootDir, c.PostForm "path"]) = .dir ∧
          u.HasPermission PermissionDirDelete = true) ∨
        (c.PostForm "action" = "delete" ∧
          fs.stat (filepathJoin [fm.rootDir, c.PostForm "path"]) = .file ∧
          u.HasPermission PermissionFileDelete = true) ∨
        (c.PostForm "action" = "rename" ∧
          fs.stat (filepathJoin [fm.rootDir, c.PostForm "path"]) = .dir ∧
          u.HasPermission PermissionDirRename = true) ∨
        (c.PostForm "action" = "rename" ∧
          fs.stat (filepathJoin [fm.rootDir, c.PostForm "path"]) = .file ∧
          u.HasPermission PermissionFileRename = true)) ∧
    (c.PostForm "action" ≠ "edit" → c.PostForm "action" ≠ "create" →
      c.PostForm "action" ≠ "delete" → c.PostForm "action" ≠ "rename" →
      ops = [] ∧
        ((∀ err, fs.stat (filepathJoin [fm.rootDir, c.PostForm "path"]) ≠ .failed err) →
          c1 = c.String 400 "未知操作") ∧
        (∀ err, fs.stat (filepathJoin [fm.rootDir, c.PostForm "path"]) = .failed err →
          c1 = c.String 500 ("获取文件信息失败: " ++ err))) := by
  constructor
  · intro hops
    obtain ⟨hstat, -, hca, -⟩ :=
      handleFileAction_ops re fs queryEscape fm c u c1 ops huser hres hops
    have hp := checkAction_pass re u c _ _ _ _ hca
    cases hst : fs.stat (filepathJoin [fm.rootDir, c.PostForm "path"]) with
    | failed err => exact absurd hst (hstat err)
    | file => simp only [hst] at hp; simp_all; tauto
    | dir => simp only [hst] at hp; simp_all; tauto
    | notExist err => simp only [hst] at hp; simp_all; tauto
  · intro h1 h2 h3 h4
    by_cases hf : ∃ err, fs.stat (filepathJoin [fm.rootDir, c.PostForm "path"]) = .failed err
    · obtain ⟨err, he⟩ := hf
      rw [handleFileAction_failed re fs queryEscape fm c u err huser he] at hres
      simp only [Option.some.injEq, Prod.mk.injEq] at hres
      refine ⟨hres.2.symm, fun hno => absurd he (hno err), ?_⟩
      intro err1 he1
      rw [he] at he1
      cases he1
      exact hres.1.symm
    · have hstat : ∀ err,
          fs.stat (filepathJoin [fm.rootDir, c.PostForm "path"]) ≠ .failed err :=
        fun err he => hf ⟨err, he⟩
      rw [handleFileAction_ok re fs queryEscape fm c u huser hstat,
        createPathCheck_other re u c _ _ h2] at hres
      simp only [checkAction_unknown re u c _ _ _ _ h1 h2 h3 h4, Option.some.injEq,
        Prod.mk.injEq] at hres
      exact ⟨hres.2.symm, fun _ => hres.1.symm, fun err he => absurd he (hstat err)⟩


/-- C26, amended, at two requests of `keyBlockedUser` on the example tree: the creation
of the directory "/docs/new", for which the user holds dir:create, and the unknown
action "chmod", answered with 400 and without a call. -/
theorem C26_action_needs_capability_witness :
    (exampleManager.handleFileAction goRegexp exampleFS id mkdirRequest =
        some (mkdirRequest.Redirect 303 "/file?path=/docs",
          [.mkdirAll "/srv/files/docs/new"]) ∧
      mkdirRequest.PostForm "action" = "create" ∧ mkdirRequest.PostForm "is_dir" = "true" ∧
      keyBlockedUser.HasPermission PermissionDirCreate = true) ∧
    (exampleManager.handleFileAction goRegexp exampleFS id chmodRequest =
        some (chmodRequest.String 400 "未知操作", []) ∧
      ([] : List FileOp) = [] ∧
      ((∀ err, exampleFS.stat
          (filepathJoin [exampleManager.rootDir, chmodRequest.PostForm "path"]) ≠ .failed err) →
        chmodRequest.String 400 "未知操作" = chmodRequest.String 400 "未知操作") ∧
      (∀ err, exampleFS.stat
          (filepathJoin [exampleManager.rootDir, chmodRequest.PostForm "path"]) = .failed err →
        chmodRequest.String 400 "未知操作" =
          chmodRequest.String 500 ("获取文件信息失败: " ++ err))) :=
  have h1 : exampleManager.handleFileAction goRegexp exampleFS id mkdirRequest =
      some (mkdirRequest.Redirect 303 "/file?path=/docs",
        [.mkdirAll "/srv/files/docs/new"]) := by decide
  have h2 : exampleManager.handleFileAction goRegexp exampleFS id chmodRequest =
      some (chmodRequest.String 400 "未知操作", []) := by decide
  ⟨⟨h1, by decide, by decide,
      ((C26_action_needs_capability goRegexp exampleFS id exampleManager mkdirRequest
        keyBlockedUser _ _ (by decide) h1).1 (by decide)).elim
        (fun h => absurd h.1 (by decide))
        (fun h => h.elim (fun h => h.2.2) (fun h => h.elim
          (fun h => absurd h.2.1 (by decide)) (fun h => h.elim
          (fun h => absurd h.1 (by decide)) (fun h => h.elim
          (fun h => absurd h.1 (by decide)) (fun h => h.elim
          (fun h => absurd h.1 (by decide)) (fun h => absurd h.1 (by decide)))))))⟩,
    ⟨h2, (C26_action_needs_capability goRegexp exampleFS id exampleManager chmodRequest
      keyBlockedUser _ _ (by decide) h2).2 (by decide) (by decide) (by decide) (by decide)⟩⟩


theorem not_failed_of_dir (st : StatResult) (h : st = .dir) (err : String) :
    st ≠ .failed err := by
  subst h
  intro he
  cases he

theorem not_failed_of_file (st : StatResult) (h : st = .file) (err : String) :
    st ≠ .failed err := by
  subst h
  intro he
  cases he

theorem not_notExist_of_file (st : StatResult) (h : st = .file) (err : String) :
    st ≠ .notExist err := by
  subst h
  intro he
  cases he

/-- C27 on the code. The acting user is not allowed on the path of the new item. A
"create" with `is_dir` "true" is answered with 403 and makes no call; so is a "rename"
of an existing item to such a name, and an upload. But a "create" of a file (`is_dir`
not "true") by a user who holds dir:upload is not checked against the new path: the
handler calls `os.Create` on it. -/
theorem C27_file_create_unchecked (re : Regexp) (fs : FS) (queryEscape : String → String)
    (fm : FileManager) (c : Context) (u : User)
    (huser : c.Get "user" = some (.user u))
    (hstat : ∀ err, fs.stat (filepathJoin [fm.rootDir, c.PostForm "path"]) ≠ .failed err) :
    (c.PostForm "action" = "create" → c.PostForm "is_dir" = "true" →
      u.IsPathAllowed re (filepathJoin [c.PostForm "path", c.PostForm "name"]) = some false →
      fm.handleFileAction re fs queryEscape c =
        some (c.String 403 "没有权限在该位置创建内容", [])) ∧
    (c.PostForm "action" = "create" → c.PostForm "is_dir" ≠ "true" →
      c.PostForm "name" ≠ "" → u.HasPermission PermissionDirUpload = true →
      u.IsPathAllowed re (filepathJoin [c.PostForm "path", c.PostForm "name"]) = some false →
      ∃ c1, fm.handleFileAction re fs queryEscape c =
        some (c1, [.create (filepathJoin
          [filepathJoin [fm.rootDir, c.PostForm "path"], c.PostForm "name"])])) ∧
    (c.PostForm "action" = "rename" →
      (∀ err, fs.stat (filepathJoin [fm.rootDir, c.PostForm "path"]) ≠ .notExist err) →
      c.PostForm "new_name" ≠ "" →
      u.IsPathAllowed re
        (filepathJoin [filepathDir (c.PostForm "path"), c.PostForm "new_name"]) = some false →
      fm.handleFileAction re fs queryEscape c =
        some (c.String 403 "没有权限使用该名称或路径", [])) ∧
    (∀ filename content : String,
      fs.stat (filepathJoin [fm.rootDir, c.PostForm "path"]) = .dir →
      u.IsPathAllowed re (filepathJoin [c.PostForm "path", filename]) = some false →
      fm.handleFileUpload re fs queryEscape none (.ok (filename, content)) c =
        some (c.String 403 "没有权限上传文件到该位置", [])) := by
  have hcu := contextUser_of_get c u huser
  refine ⟨?_, ?_, ?_, ?_⟩
  · intro ha hd hno
    rw [handleFileAction_ok re fs queryEscape fm c u hcu hstat]
    simp [createPathCheck, ha, hd, hno]
  · intro ha hd hn hp _
    rw [handleFileAction_ok re fs queryEscape fm c u hcu hstat]
    simp only [createPathCheck, checkAction, performAction, ha, hd, hn, hp]
    cases hr : fs.run (.create (filepathJoin
        [filepathJoin [fm.rootDir, c.PostForm "path"], c.PostForm "name"])) <;> simp [hr]
  · intro ha hex hn hno
    rw [handleFileAction_ok re fs queryEscape fm c u hcu hstat]
    cases hst : fs.stat (filepathJoin [fm.rootDir, c.PostForm "path"]) with
    | notExist err => exact absurd hst (hex err)
    | failed err => exact absurd hst (hstat err)
    | file => simp [createPathCheck, checkAction, ha, hn, hno]
    | dir => simp [createPathCheck, checkAction, ha, hn, hno]
  · intro filename content hdir hno
    simp only [FileManager.handleFileUpload, huser, hdir, hno]


/-- C27 on the code, at `keyBlockedUser`, who is blocked on every name that ends in
".key": the directory "/docs/id.key", the rename of "/docs/notes.txt" to "id.key" and
the upload of "id.key" are answered with 403, the file "/docs/id.key" is created. -/
theorem C27_file_create_unchecked_witness :
    keyBlockedUser.IsPathAllowed goRegexp "/docs/id.key" = some false ∧
    exampleManager.handleFileAction goRegexp exampleFS id keyDirRequest =
      some (keyDirRequest.String 403 "没有权限在该位置创建内容", []) ∧
    exampleManager.handleFileAction goRegexp exampleFS id keyFileRequest =
      some (keyFileRequest.Redirect 303 "/file?path=/docs",
        [.create "/srv/files/docs/id.key"]) ∧
    (∃ c1, exampleManager.handleFileAction goRegexp exampleFS id keyFileRequest =
      some (c1, [.create (filepathJoin
        [filepathJoin [exampleManager.rootDir, keyFileRequest.PostForm "path"],
          keyFileRequest.PostForm "name"])])) ∧
    exampleManager.handleFileAction goRegexp exampleFS id keyRenameRequest =
      some (keyRenameRequest.String 403 "没有权限使用该名称或路径", []) ∧
    exampleManager.handleFileUpload goRegexp exampleFS id none (.ok ("id.key", "secret"))
        uploadRequest =
      some (uploadRequest.String 403 "没有权限上传文件到该位置", []) :=
  ⟨by decide,
    (C27_file_create_unchecked goRegexp exampleFS id exampleManager keyDirRequest
      keyBlockedUser rfl (not_failed_of_dir _ (by decide))).1 (by decide) (by decide)
      (by decide),
    by decide,
    (C27_file_create_unchecked goRegexp exampleFS id exampleManager keyFileRequest
      keyBlockedUser rfl (not_failed_of_dir _ (by decide))).2.1 (by decide) (by decide)
      (by decide) (by decide) (by decide),
    (C27_file_create_unchecked goRegexp exampleFS id exampleManager keyRenameRequest
      keyBlockedUser rfl (not_failed_of_file _ (by decide))).2.2.1 (by decide)
      (not_notExist_of_file _ (by decide)) (by decide) (by decide),
    (C27_file_create_unchecked goRegexp exampleFS id exampleManager uploadRequest
      keyBlockedUser rfl (not_failed_of_dir _ (by decide))).2.2.2 "id.key" "secret"
      (by decide) (by decide)⟩

end FM
